import Mathlib

/-!
Shallow embedding of the plant-nursery inventory & POS backend
(models `Sale`, `Product`, `Customer`, `InventoryMovement` and the
route handlers for sale creation, void, refund, payments, barcode
movements and stock adjustment), together with proofs checking the
specification's claims against the embedded code.

Conventions of the embedding:
* JS numbers that hold money are modelled as `ℚ`; stock counters and
  quantities as `ℤ`; database ids as `ℕ`.
* Mongo documents are Lean structures; a collection is a `List`.
* A route handler is a function from the request and the database
  state to a result together with the new database state.  Handlers
  that can stop half way (the per-item loop of sale creation) return
  the state reached at the point of failure, mirroring the absence of
  rollback in the source.
-/

namespace Nursery

/-- Movement kinds, from `models/InventoryMovement.js` (`movementType` enum). -/
inductive MovementType where
  | received
  | sold
  | returned
  | damaged
  | adjustment
  | transferred
  | stockCount
deriving DecidableEq, Repr

/-- A product document, the fields used by the handlers under scrutiny
(`models/Product.js`). -/
structure Product where
  id : Nat
  barcode : String
  name : String
  currentStock : Int
deriving DecidableEq, Repr

/-- An inventory movement document (`models/InventoryMovement.js`). -/
structure Movement where
  product : Nat
  barcode : String
  movementType : MovementType
  quantity : Int
  previousStock : Int
  newStock : Int
  reference : Option String
  notes : Option String
  performedBy : Nat
deriving DecidableEq, Repr

/-- Sale status enum (`models/Sale.js`, `status` field). -/
inductive SaleStatus where
  | completed
  | refunded
  | partRefunded
  | voided
deriving DecidableEq, Repr

/-- A sale line item (`models/Sale.js`, `saleItemSchema`). -/
structure SaleItem where
  product : Nat
  barcode : String
  name : String
  quantity : Int
  pricePerUnit : ℚ
  discountAmount : ℚ
  taxRate : ℚ
  taxAmount : ℚ
  subtotal : ℚ
  total : ℚ
deriving DecidableEq, Repr

/-- A payment entry on a sale (`models/Sale.js`, `paymentSchema`). -/
structure Payment where
  method : String
  amount : ℚ
  reference : Option String
  transactionId : Option String
deriving DecidableEq, Repr

/-- One refunded line inside a refund record
(`PUT /sales/:id/refund`, the `refundedItems` array). -/
structure RefundedItem where
  product : Nat
  barcode : String
  name : String
  quantity : Int
  pricePerUnit : ℚ
  taxRate : ℚ
  refundAmount : ℚ
deriving DecidableEq, Repr

/-- A refund record pushed onto `sale.refunds`. -/
structure RefundRecord where
  items : List RefundedItem
  total : ℚ
  reason : String
  refundedBy : Nat
  paymentMethod : String
deriving DecidableEq, Repr

/-- A payment-gateway refund entry pushed by `POST /payments/refund`. -/
structure GatewayRefund where
  originalTransactionId : String
  refundTransactionId : String
  amount : ℚ
  processedBy : Nat
deriving DecidableEq, Repr

/-- A sale document (`models/Sale.js`).  `notes` uses `""` for the JS
falsy absent string. -/
structure Sale where
  id : Nat
  saleNumber : String
  customer : Option Nat
  items : List SaleItem
  payments : List Payment
  subtotal : ℚ
  taxTotal : ℚ
  discountTotal : ℚ
  total : ℚ
  status : SaleStatus
  notes : String
  cashier : Nat
  refunds : List RefundRecord
  gatewayRefunds : List GatewayRefund
deriving DecidableEq, Repr

/-- Customer membership levels (`models/Customer.js`). -/
inductive MembershipLevel where
  | regular
  | bronze
  | silver
  | gold
  | platinum
deriving DecidableEq, Repr

/-- A customer document, the fields touched by `updatePurchaseStats`. -/
structure Customer where
  id : Nat
  membershipLevel : MembershipLevel
  loyaltyPoints : Int
  purchaseHistory : List Nat
  totalSpent : ℚ
deriving DecidableEq, Repr

/-- The database state shared by all handlers. -/
structure DB where
  products : List Product
  sales : List Sale
  movements : List Movement
  customers : List Customer
deriving DecidableEq, Repr

/-- `Product.findById` / `findOne` on the products collection. -/
def findProduct (db : DB) (pid : Nat) : Option Product :=
  db.products.find? (fun p => p.id = pid)

/-- Write back a product document by id (`product.save()`). -/
def saveProduct (db : DB) (p : Product) : DB :=
  { db with products := db.products.map (fun q => if q.id = p.id then p else q) }

/-- `Sale.findById` on the sales collection. -/
def findSale (db : DB) (sid : Nat) : Option Sale :=
  db.sales.find? (fun s => s.id = sid)

/-- `Sale.findOne({ saleNumber })`. -/
def findSaleByNumber (db : DB) (n : String) : Option Sale :=
  db.sales.find? (fun s => s.saleNumber = n)

/-- Write back a sale document by id (`sale.save()`). -/
def saveSale (db : DB) (s : Sale) : DB :=
  { db with sales := db.sales.map (fun t => if t.id = s.id then s else t) }

/-- `Customer.findById`. -/
def findCustomer (db : DB) (cid : Nat) : Option Customer :=
  db.customers.find? (fun c => c.id = cid)

/-- Write back a customer document by id (`customer.save()`). -/
def saveCustomer (db : DB) (c : Customer) : DB :=
  { db with customers := db.customers.map (fun d => if d.id = c.id then c else d) }

/-- `movement.save()`: movements are append-only. -/
def appendMovement (db : DB) (m : Movement) : DB :=
  { db with movements := db.movements ++ [m] }

/-- `customerSchema.methods.updatePurchaseStats` from `models/Customer.js`:
adds the sale total to `totalSpent`, pushes the sale onto
`purchaseHistory` when absent, adds `Math.floor(sale.total)` loyalty
points, and recomputes the membership tier from the new `totalSpent`,
leaving it unchanged below the 500 threshold. -/
def updatePurchaseStats (c : Customer) (sale : Sale) : Customer :=
  let totalSpent := c.totalSpent + sale.total
  let history :=
    if c.purchaseHistory.contains sale.id then c.purchaseHistory
    else c.purchaseHistory ++ [sale.id]
  let points := c.loyaltyPoints + ⌊sale.total⌋
  let level :=
    if totalSpent ≥ 5000 then MembershipLevel.platinum
    else if totalSpent ≥ 2500 then MembershipLevel.gold
    else if totalSpent ≥ 1000 then MembershipLevel.silver
    else if totalSpent ≥ 500 then MembershipLevel.bronze
    else c.membershipLevel
  { c with
    totalSpent := totalSpent
    purchaseHistory := history
    loyaltyPoints := points
    membershipLevel := level }

/-! ### String primitives

Models of the JavaScript string operations used by the sale-number
generator (`saleSchema.pre('save')`) and the barcode generator
(`POST /barcode/generate`): `Number#toString`, `String#padStart`,
`String#slice` with a negative index, `parseInt`, and `substring`. -/

/-- The decimal digit character for `n < 10`. -/
def digitChar (n : Nat) : Char := Char.ofNat (48 + n)

/-- Decimal digits of a non-negative integer, most significant first;
`fuel` bounds the recursion depth (any fuel with `n < 10^fuel` gives
the digits). -/
def natDigitsAux : Nat → Nat → List Nat
  | 0, _ => []
  | fuel + 1, n =>
    if n < 10 then [n]
    else natDigitsAux fuel (n / 10) ++ [n % 10]

/-- JS `Number#toString()` on a non-negative integer: its decimal
digits rendered as characters. -/
def natToString (n : Nat) : String :=
  String.mk ((natDigitsAux (n + 1) n).map digitChar)

/-- JS `Math.abs` on an integer. -/
def intAbs (x : Int) : Int := if x < 0 then -x else x

/-- JS `Math.abs` on a rational. -/
def ratAbs (x : ℚ) : ℚ := if x < 0 then -x else x

/-- JS `String#padStart(len, c)`: pad on the left, never truncate. -/
def padStart (s : String) (len : Nat) (c : Char) : String :=
  String.mk (List.replicate (len - s.length) c) ++ s

/-- JS `String#slice(-n)`: the last `n` characters (the whole string
when it is shorter than `n`). -/
def takeLast (s : String) (n : Nat) : String :=
  String.mk (s.data.drop (s.data.length - n))

/-- JS `String#substring(a, b)` (for `a ≤ b`). -/
def substring (s : String) (a b : Nat) : String :=
  String.mk ((s.data.take b).drop a)

/-- The numeric value of a list of decimal digit characters. -/
def digitsVal (l : List Char) : Nat :=
  l.foldl (fun n c => n * 10 + (c.toNat - 48)) 0

/-- JS `parseInt(s, 10)`: parse the longest digit run at the front,
`none` (NaN) when there is none. -/
def parseIntPrefix (s : String) : Option Nat :=
  let ds := s.data.takeWhile (fun c => c.isDigit)
  if ds.isEmpty then none else some (digitsVal ds)

/-- The greatest string of a list, i.e. what
`findOne(...).sort({ field: -1 })` returns on the matching subset. -/
def maxStr? (l : List String) : Option String :=
  l.foldl
    (fun acc s =>
      match acc with
      | none => some s
      | some m => if m < s then some s else some m)
    none

/-! ### Sale-number generation (`saleSchema.pre('save')`) -/

/-- The date part of a sale number: `S` + 2-digit year + 2-digit month
+ 2-digit day. -/
def dayPrefix (year month day : Nat) : String :=
  "S" ++ takeLast (natToString year) 2 ++ padStart (natToString month) 2 '0'
    ++ padStart (natToString day) 2 '0'

/-- The regex test `^prefix` of the pre-save hook. -/
def strStartsWith (p s : String) : Bool := p.data.isPrefixOf s.data

/-- The daily sequence chosen by the pre-save hook: 1 when no sale
number starts with the prefix, otherwise `parseInt` of the last four
characters of the greatest matching sale number, plus one (1 again
when that parse is NaN). -/
def nextSaleSequence (p : String) (pool : List String) : Nat :=
  match maxStr? (pool.filter (fun s => strStartsWith p s)) with
  | none => 1
  | some last =>
    match parseIntPrefix (takeLast last 4) with
    | some k => k + 1
    | none => 1

/-- `sequence.toString().padStart(4, '0')`, the sequence part of a
sale number and of a barcode. -/
def pad4 (n : Nat) : String := padStart (natToString n) 4 '0'

/-- The sale number assigned by the pre-save hook when the document
has none: prefix ++ zero-padded 4-digit sequence. -/
def genSaleNumber (p : String) (pool : List String) : String :=
  p ++ pad4 (nextSaleSequence p pool)

/-- Repeated same-day sale creation: each generated number joins the
pool seen by the next generation (the saved sale is found by the next
pre-save scan). -/
def genRun (p : String) (pool : List String) : Nat → List String
  | 0 => []
  | n + 1 =>
    let s := genSaleNumber p pool
    s :: genRun p (pool ++ [s]) n

/-- The sale numbers present after `k` same-day generations:
sequences 1 to `k` behind the day prefix. -/
def genPool (p : String) (k : Nat) : List String :=
  (List.range' 1 k).map (fun j => p ++ pad4 j)

/-- The numeric value of a list of decimal digits. -/
def digitsValN (l : List Nat) : Nat :=
  l.foldl (fun acc d => acc * 10 + d) 0

/-- The digits of `pad4 n`: the decimal digits left-padded with zeros
to four places. -/
def padDigits4 (n : Nat) : List Nat :=
  List.replicate (4 - (natDigitsAux 4 n).length) 0 ++ natDigitsAux 4 n

/-! ### Barcode generation (`POST /barcode/generate`) -/

/-- The category-code map of the barcode generator (`999` for an
unknown category). -/
def categoryCode (category : String) : String :=
  if category = "Trees" then "100"
  else if category = "Shrubs" then "200"
  else if category = "Flowers" then "300"
  else if category = "Herbs" then "400"
  else if category = "Vegetables" then "500"
  else if category = "Indoor Plants" then "600"
  else if category = "Seeds" then "700"
  else if category = "Tools" then "800"
  else if category = "Fertilizers" then "900"
  else if category = "Pots" then "950"
  else "999"

/-- The 4-digit product sequence of the next barcode: `0001` when the
category has no product yet, otherwise characters 6 to 10 of the last
barcode parsed as an integer, plus one, zero-padded ("NaN" arithmetic
of the JS source is `none`). -/
def nextProductNumber (lastBarcode : Option String) : Option String :=
  match lastBarcode with
  | none => some "0001"
  | some b =>
    match parseIntPrefix (substring b 6 10) with
    | some k => some (pad4 (k + 1))
    | none => none

/-- The weighted checksum of the generator: digit at even index times
3, at odd index times 1, summed (`none` when a character is not a
digit, where JS would produce NaN). -/
def weightedSum (s : String) : Option Nat :=
  s.data.enum.foldl
    (fun acc p =>
      match acc with
      | none => none
      | some n =>
        if p.2.isDigit then
          some (n + (p.2.toNat - 48) * (if p.1 % 2 = 0 then 3 else 1))
        else none)
    (some 0)

/-- `POST /barcode/generate`: 299 + category code + sequence, with the
check digit `(10 - sum % 10) % 10` appended. -/
def generateBarcode (category : String) (lastBarcode : Option String) :
    Option String :=
  match nextProductNumber lastBarcode with
  | none => none
  | some productNumber =>
    let body := "299" ++ categoryCode category ++ productNumber
    match weightedSum body with
    | none => none
    | some sum =>
      let checkDigit := (10 - sum % 10) % 10
      some (body ++ natToString checkDigit)

/-! ### Route handlers -/

/-- The body of `POST /sales` after validation. -/
structure SaleRequest where
  items : List SaleItem
  customer : Option Nat
  subtotal : ℚ
  taxTotal : ℚ
  discountTotal : ℚ
  total : ℚ
  payments : List Payment
  notes : String
deriving DecidableEq, Repr

/-- Outcome of `POST /sales`. -/
inductive CreateResult where
  | created (sale : Sale)
  | insufficientStock (name : String) (available : Int)
deriving DecidableEq, Repr

/-- The per-item loop of `POST /sales`: look the product up (skipping
missing ones), stop with the insufficient-stock response when
`currentStock < quantity`, otherwise decrement the stock and append a
`Sold` movement, keeping all effects performed so far. -/
def sellLoop (userId : Nat) (saleNumber : String) :
    List SaleItem → DB → Option (String × Int) × DB
  | [], db => (none, db)
  | item :: rest, db =>
    match findProduct db item.product with
    | none => sellLoop userId saleNumber rest db
    | some p =>
      if p.currentStock < item.quantity then
        (some (p.name, p.currentStock), db)
      else
        let p' := { p with currentStock := p.currentStock - item.quantity }
        let m : Movement :=
          { product := p.id
            barcode := p.barcode
            movementType := .sold
            quantity := item.quantity
            previousStock := p.currentStock
            newStock := p'.currentStock
            reference := some saleNumber
            notes := none
            performedBy := userId }
        sellLoop userId saleNumber rest (appendMovement (saveProduct db p') m)

/-- The `new Sale({...})` document built by `POST /sales`: status
`Completed`, cashier from the auth user, sale number assigned by the
pre-save hook from the existing sale numbers and today's prefix. -/
def newSaleDoc (db : DB) (req : SaleRequest) (userId : Nat) (dayPre : String)
    (newId : Nat) : Sale :=
  { id := newId
    saleNumber := genSaleNumber dayPre (db.sales.map (fun s => s.saleNumber))
    customer := req.customer
    items := req.items
    payments := req.payments
    subtotal := req.subtotal
    taxTotal := req.taxTotal
    discountTotal := req.discountTotal
    total := req.total
    status := .completed
    notes := req.notes
    cashier := userId
    refunds := []
    gatewayRefunds := [] }

/-- The customer step of `POST /sales`: when a customer id was sent and
resolves, apply `updatePurchaseStats` and save; otherwise no-op. -/
def afterCustomerUpdate (db1 : DB) (sale : Sale) : DB :=
  match sale.customer with
  | none => db1
  | some cid =>
    match findCustomer db1 cid with
    | none => db1
    | some c => saveCustomer db1 (updatePurchaseStats c sale)

/-- `POST /sales`: build the sale (status `Completed`, sale number from
the pre-save hook), persist it, update the customer's purchase stats
when one is attached, then run the per-item stock loop.  A mid-loop
failure returns the state reached so far — nothing is rolled back. -/
def createSale (db : DB) (req : SaleRequest) (userId : Nat) (dayPre : String)
    (newId : Nat) : CreateResult × DB :=
  let sale := newSaleDoc db req userId dayPre newId
  let db1 : DB := { db with sales := db.sales ++ [sale] }
  let db2 := afterCustomerUpdate db1 sale
  match sellLoop userId sale.saleNumber req.items db2 with
  | (none, db3) => (CreateResult.created sale, db3)
  | (some (nm, avail), db3) => (CreateResult.insufficientStock nm avail, db3)

/-- `saleSchema.methods.calculateTotals`: recompute the four totals
from the line items. -/
def calculateTotals (s : Sale) : Sale :=
  let subtotal := (s.items.map (fun i => i.subtotal)).sum
  let taxTotal := (s.items.map (fun i => i.taxAmount)).sum
  let discountTotal := (s.items.map (fun i => i.discountAmount * (i.quantity : ℚ))).sum
  { s with
    subtotal := subtotal
    taxTotal := taxTotal
    discountTotal := discountTotal
    total := subtotal + taxTotal - discountTotal }

/-- One entry of the restock loops shared by void and refund. -/
structure Restock where
  product : Nat
  barcode : String
  quantity : Int
deriving DecidableEq, Repr

/-- The per-item loop of void/refund: look the product up (skipping
missing ones), increment its stock and append a `Returned` movement
carrying the given reference. -/
def restockLoop (userId : Nat) (reference reason : String) :
    List Restock → DB → DB
  | [], db => db
  | item :: rest, db =>
    match findProduct db item.product with
    | none => restockLoop userId reference reason rest db
    | some p =>
      let p' := { p with currentStock := p.currentStock + item.quantity }
      let m : Movement :=
        { product := p.id
          barcode := item.barcode
          movementType := .returned
          quantity := item.quantity
          previousStock := p.currentStock
          newStock := p'.currentStock
          reference := some reference
          notes := some reason
          performedBy := userId }
      restockLoop userId reference reason rest (appendMovement (saveProduct db p') m)

/-- Outcome of `PUT /sales/:id/void`. -/
inductive VoidResult where
  | ok
  | notFound
  | alreadyVoided
  | cannotVoidRefunded
deriving DecidableEq, Repr

/-- `PUT /sales/:id/void`: guard on existence and on the `Voided` and
`Refunded` statuses, set status `Voided`, append the reason to the
notes, then restock every original line item with a `Returned`
movement referencing `VOID-<saleNumber>`. -/
def voidSale (db : DB) (sid : Nat) (reason : String) (userId : Nat) :
    VoidResult × DB :=
  match findSale db sid with
  | none => (.notFound, db)
  | some sale =>
    if sale.status = .voided then (.alreadyVoided, db)
    else if sale.status = .refunded then (.cannotVoidRefunded, db)
    else
      let sale' :=
        { sale with
          status := .voided
          notes := (if sale.notes ≠ "" then sale.notes ++ " | " else "")
            ++ "VOIDED: " ++ reason }
      let db1 := saveSale db sale'
      let db2 := restockLoop userId ("VOID-" ++ sale.saleNumber) reason
        (sale.items.map (fun i => ⟨i.product, i.barcode, i.quantity⟩)) db1
      (.ok, db2)

/-- One entry of the `items` array of `PUT /sales/:id/refund`. -/
structure RefundItemReq where
  product : Nat
  quantity : Int
deriving DecidableEq, Repr

/-- Result of validating the refund items against the original sale. -/
inductive RefundCheck where
  | ok (items : List RefundedItem)
  | notInSale (product : Nat)
  | tooMany (name : String)
deriving DecidableEq, Repr

/-- The validation loop of `PUT /sales/:id/refund`: each requested item
must match an original line item (by product) and must not exceed its
quantity; on success it is priced at the original unit price. -/
def buildRefundItems (saleItems : List SaleItem) :
    List RefundItemReq → RefundCheck
  | [] => .ok []
  | r :: rest =>
    match saleItems.find? (fun i => i.product = r.product) with
    | none => .notInSale r.product
    | some oi =>
      if r.quantity > oi.quantity then .tooMany oi.name
      else
        match buildRefundItems saleItems rest with
        | .ok items =>
          .ok ({ product := oi.product
                 barcode := oi.barcode
                 name := oi.name
                 quantity := r.quantity
                 pricePerUnit := oi.pricePerUnit
                 taxRate := oi.taxRate
                 refundAmount := oi.pricePerUnit * (r.quantity : ℚ) } :: items)
        | e => e

/-- Outcome of `PUT /sales/:id/refund`. -/
inductive RefundResult where
  | ok (status : SaleStatus)
  | notFound
  | cannotRefundVoided
  | notInOriginalSale (product : Nat)
  | exceedsOriginal (name : String)
deriving DecidableEq, Repr

/-- The all-items-refunded test of the refund handler: every original
line item has a refunded entry (first match by product) of exactly its
quantity. -/
def allItemsRefunded (saleItems : List SaleItem)
    (refundedItems : List RefundedItem) : Bool :=
  saleItems.all (fun oi =>
    match refundedItems.find? (fun ri => ri.product = oi.product) with
    | some ri => ri.quantity == oi.quantity
    | none => false)

/-- `PUT /sales/:id/refund`: guard on existence and on `Voided`,
validate the refund items, push a refund record (item total plus
proportional tax), set status `Refunded` or `Partially Refunded`,
then restock each refunded item with a `Returned` movement referencing
`REFUND-<saleNumber>`. -/
def refundSale (db : DB) (sid : Nat) (reqs : List RefundItemReq)
    (reason paymentMethod : String) (userId : Nat) : RefundResult × DB :=
  match findSale db sid with
  | none => (.notFound, db)
  | some sale =>
    if sale.status = .voided then (.cannotRefundVoided, db)
    else
      match buildRefundItems sale.items reqs with
      | .notInSale pid => (.notInOriginalSale pid, db)
      | .tooMany nm => (.exceedsOriginal nm, db)
      | .ok refundedItems =>
        let refundTotal := (refundedItems.map (fun i => i.refundAmount)).sum
        let taxRefund :=
          (refundedItems.map (fun i => i.refundAmount * (i.taxRate / 100))).sum
        let totalRefund := refundTotal + taxRefund
        let newStatus :=
          if allItemsRefunded sale.items refundedItems then SaleStatus.refunded
          else SaleStatus.partRefunded
        let sale' :=
          { sale with
            refunds := sale.refunds
              ++ [⟨refundedItems, totalRefund, reason, userId, paymentMethod⟩]
            status := newStatus }
        let db1 := saveSale db sale'
        let db2 := restockLoop userId ("REFUND-" ++ sale.saleNumber) reason
          (refundedItems.map (fun i => ⟨i.product, i.barcode, i.quantity⟩)) db1
        (.ok newStatus, db2)

/-- Outcome of the payment-gateway routes. -/
inductive PayResult where
  | ok
  | notFound
  | txNotFound
  | amountExceeds
  | gatewayFailed
deriving DecidableEq, Repr

/-- `POST /payments/void`: find the sale by number and the payment by
transaction id; when the gateway void succeeds, splice the payment out
and set status `Voided` — whatever the previous status was. -/
def paymentVoid (db : DB) (transactionId saleNumber : String)
    (gatewaySuccess : Bool) : PayResult × DB :=
  match findSaleByNumber db saleNumber with
  | none => (.notFound, db)
  | some sale =>
    match sale.payments.findIdx? (fun p => p.transactionId = some transactionId) with
    | none => (.txNotFound, db)
    | some i =>
      if gatewaySuccess then
        let sale' :=
          { sale with payments := sale.payments.eraseIdx i, status := .voided }
        (.ok, saveSale db sale')
      else (.gatewayFailed, db)

/-- `POST /payments/refund`: find the sale and payment, reject a refund
amount above the payment amount; on gateway success set status
`Refunded` when the amount matches the payment within 0.01 and
`Partially Refunded` otherwise, and push a gateway refund record —
without looking at the previous status. -/
def paymentRefund (db : DB) (transactionId : String) (amount : ℚ)
    (saleNumber : String) (userId : Nat) (refundTxId : String)
    (gatewaySuccess : Bool) : PayResult × DB :=
  match findSaleByNumber db saleNumber with
  | none => (.notFound, db)
  | some sale =>
    match sale.payments.find? (fun p => p.transactionId = some transactionId) with
    | none => (.txNotFound, db)
    | some payment =>
      if amount > payment.amount then (.amountExceeds, db)
      else if gatewaySuccess then
        let newStatus :=
          if ratAbs (amount - payment.amount) < 1 / 100 then SaleStatus.refunded
          else SaleStatus.partRefunded
        let sale' :=
          { sale with
            status := newStatus
            gatewayRefunds := sale.gatewayRefunds
              ++ [⟨transactionId, refundTxId, amount, userId⟩] }
        (.ok, saveSale db sale')
      else (.gatewayFailed, db)

/-- `POST /payments/eftpos`: find the sale by reference, push the
gateway payment, and set status back to `Completed` whenever the
payment sum reaches the total — whatever the previous status was. -/
def paymentEftpos (db : DB) (amount : ℚ) (saleReference : String)
    (txId : String) (gatewaySuccess : Bool) : PayResult × DB :=
  match findSaleByNumber db saleReference with
  | none => (.notFound, db)
  | some sale =>
    if gatewaySuccess then
      let payments' := sale.payments
        ++ [{ method := "EFTPOS"
              amount := amount
              reference := some saleReference
              transactionId := some txId }]
      let totalPayments := (payments'.map (fun p => p.amount)).sum
      let sale' :=
        { sale with
          payments := payments'
          status := if totalPayments ≥ sale.total then .completed else sale.status }
      (.ok, saveSale db sale')
    else (.gatewayFailed, db)

/-- Outcome of `POST /barcode/movement`. -/
inductive BarcodeMovementResult where
  | ok (movement : Movement)
  | missingFields
  | productNotFound
  | insufficientStock (available : Int)
  | invalidMovementType
deriving DecidableEq, Repr

/-- `POST /barcode/movement`: inbound kinds (`Received`, `Returned`,
`Adjustment`) add the quantity to the stock, outbound kinds (`Sold`,
`Damaged`) subtract it after an insufficient-stock guard, the other
kinds are rejected; on success the movement is saved and the product
stock updated. -/
def barcodeMovement (db : DB) (barcode : String) (quantity : Int)
    (movementType : MovementType) (notes : Option String) (userId : Nat) :
    BarcodeMovementResult × DB :=
  if barcode = "" ∨ quantity = 0 then (.missingFields, db)
  else
    match db.products.find? (fun p => p.barcode = barcode) with
    | none => (.productNotFound, db)
    | some product =>
      let previousStock := product.currentStock
      let newStockE : Except BarcodeMovementResult Int :=
        match movementType with
        | .received | .returned | .adjustment => .ok (previousStock + quantity)
        | .sold | .damaged =>
          if previousStock < quantity then
            .error (.insufficientStock previousStock)
          else .ok (previousStock - quantity)
        | .transferred | .stockCount => .error .invalidMovementType
      match newStockE with
      | .error e => (e, db)
      | .ok newStock =>
        let m : Movement :=
          { product := product.id
            barcode := barcode
            movementType := movementType
            quantity := quantity
            previousStock := previousStock
            newStock := newStock
            reference := none
            notes := notes
            performedBy := userId }
        (.ok m,
          saveProduct (appendMovement db m) { product with currentStock := newStock })

/-- Outcome of `PUT /products/:id/stock`. -/
inductive AdjustResult where
  | ok (movement : Movement)
  | notFound
deriving DecidableEq, Repr

/-- `PUT /products/:id/stock`: overwrite `currentStock` with the
requested value and record an `Adjustment` movement whose quantity is
the absolute difference. -/
def adjustStock (db : DB) (pid : Nat) (newStockValue : Int)
    (notes : Option String) (userId : Nat) : AdjustResult × DB :=
  match findProduct db pid with
  | none => (.notFound, db)
  | some product =>
    let previousStock := product.currentStock
    let db1 := saveProduct db { product with currentStock := newStockValue }
    let m : Movement :=
      { product := product.id
        barcode := product.barcode
        movementType := .adjustment
        quantity := intAbs (newStockValue - previousStock)
        previousStock := previousStock
        newStock := newStockValue
        reference := none
        notes := some (notes.getD "Stock adjustment by administrator")
        performedBy := userId }
    (.ok m, appendMovement db1 m)

/-- The `Returned` movement the void/refund restock loop records for
one item, expressed against the stock the product has when the loop
starts (accurate when the loop touches each product once). -/
def expectedReturnMovement (userId : Nat) (reference reason : String)
    (db : DB) (i : Restock) : Movement :=
  let p := (findProduct db i.product).getD ⟨0, "", "", 0⟩
  { product := p.id
    barcode := i.barcode
    movementType := .returned
    quantity := i.quantity
    previousStock := p.currentStock
    newStock := p.currentStock + i.quantity
    reference := some reference
    notes := some reason
    performedBy := userId }

/-! ### Generic lookup/update lemmas

`saveProduct`, `saveSale` and `saveCustomer` all write back a document
by mapping over the collection; these two lemmas describe the effect
of such a write on an id lookup. -/

theorem find?_update_found {α : Type} (key : α → Nat) :
    ∀ (l : List α) (i : Nat) (a b : α),
      l.find? (fun x => key x = i) = some a → key b = i →
      (l.map (fun x => if key x = key b then b else x)).find?
        (fun x => key x = i) = some b := by
  intro l
  induction l with
  | nil => intro i a b h _; simp at h
  | cons hd tl ih =>
    intro i a b h hb
    by_cases hk : key hd = i
    · have hhb : key hd = key b := hk.trans hb.symm
      simp [List.map, hhb, hb]
    · have hne : key hd ≠ key b := fun hc => hk (hc.trans hb)
      rw [List.find?_cons_of_neg _ (by simpa using hk)] at h
      simp only [List.map, if_neg hne]
      rw [List.find?_cons_of_neg _ (by simpa using hk)]
      exact ih i a b h hb

theorem find?_update_other {α : Type} (key : α → Nat) :
    ∀ (l : List α) (i : Nat) (b : α),
      key b ≠ i →
      (l.map (fun x => if key x = key b then b else x)).find?
        (fun x => key x = i) = l.find? (fun x => key x = i) := by
  intro l
  induction l with
  | nil => intro i b _; rfl
  | cons hd tl ih =>
    intro i b hb
    by_cases hk : key hd = key b
    · have hhd : key hd ≠ i := fun hc => hb (hk.symm.trans hc)
      simp only [List.map, if_pos hk]
      rw [List.find?_cons_of_neg _ (by simpa using hb),
        List.find?_cons_of_neg _ (by simpa using hhd)]
      exact ih i b hb
    · simp only [List.map, if_neg hk]
      by_cases hhd : key hd = i
      · rw [List.find?_cons_of_pos _ (by simpa using hhd),
          List.find?_cons_of_pos _ (by simpa using hhd)]
      · rw [List.find?_cons_of_neg _ (by simpa using hhd),
          List.find?_cons_of_neg _ (by simpa using hhd)]
        exact ih i b hb

theorem findProduct_saveProduct_self (db : DB) (pid : Nat) (p p' : Product)
    (h : findProduct db pid = some p) (hid : p'.id = pid) :
    findProduct (saveProduct db p') pid = some p' := by
  have hpid : p.id = pid := by
    have := List.find?_some h
    simpa using this
  unfold findProduct saveProduct
  simp only
  have := find?_update_found (fun q : Product => q.id) db.products pid p p' h hid
  simpa [hid, hpid] using this

theorem findProduct_saveProduct_other (db : DB) (pid : Nat) (p' : Product)
    (h : p'.id ≠ pid) :
    findProduct (saveProduct db p') pid = findProduct db pid := by
  unfold findProduct saveProduct
  simpa using find?_update_other (fun q : Product => q.id) db.products pid p' h

theorem findCustomer_saveCustomer_self (db : DB) (cid : Nat) (c c' : Customer)
    (h : findCustomer db cid = some c) (hid : c'.id = cid) :
    findCustomer (saveCustomer db c') cid = some c' := by
  unfold findCustomer saveCustomer
  simpa using find?_update_found (fun d : Customer => d.id) db.customers cid c c' h hid

theorem findSale_saveSale_self (db : DB) (sid : Nat) (s s' : Sale)
    (h : findSale db sid = some s) (hid : s'.id = sid) :
    findSale (saveSale db s') sid = some s' := by
  unfold findSale saveSale
  simpa using find?_update_found (fun t : Sale => t.id) db.sales sid s s' h hid

theorem intAbs_eq_abs (x : Int) : intAbs x = |x| := by
  unfold intAbs
  rcases lt_or_le x 0 with h | h
  · rw [if_pos h, abs_of_neg h]
  · rw [if_neg (not_lt.mpr h), abs_of_nonneg h]

theorem ratAbs_eq_abs (x : ℚ) : ratAbs x = |x| := by
  unfold ratAbs
  rcases lt_or_le x 0 with h | h
  · rw [if_pos h, abs_of_neg h]
  · rw [if_neg (not_lt.mpr h), abs_of_nonneg h]

/-! ### Collection-preservation facts for the write helpers and loops -/

@[simp] theorem saveProduct_sales (db : DB) (p : Product) :
    (saveProduct db p).sales = db.sales := rfl

@[simp] theorem saveProduct_customers (db : DB) (p : Product) :
    (saveProduct db p).customers = db.customers := rfl

@[simp] theorem saveProduct_movements (db : DB) (p : Product) :
    (saveProduct db p).movements = db.movements := rfl

@[simp] theorem appendMovement_sales (db : DB) (m : Movement) :
    (appendMovement db m).sales = db.sales := rfl

@[simp] theorem appendMovement_customers (db : DB) (m : Movement) :
    (appendMovement db m).customers = db.customers := rfl

@[simp] theorem appendMovement_products (db : DB) (m : Movement) :
    (appendMovement db m).products = db.products := rfl

@[simp] theorem saveCustomer_sales (db : DB) (c : Customer) :
    (saveCustomer db c).sales = db.sales := rfl

@[simp] theorem saveCustomer_products (db : DB) (c : Customer) :
    (saveCustomer db c).products = db.products := rfl

@[simp] theorem saveCustomer_movements (db : DB) (c : Customer) :
    (saveCustomer db c).movements = db.movements := rfl

@[simp] theorem saveSale_products (db : DB) (s : Sale) :
    (saveSale db s).products = db.products := rfl

@[simp] theorem saveSale_customers (db : DB) (s : Sale) :
    (saveSale db s).customers = db.customers := rfl

@[simp] theorem saveSale_movements (db : DB) (s : Sale) :
    (saveSale db s).movements = db.movements := rfl

theorem sellLoop_sales (userId : Nat) (saleNumber : String) :
    ∀ (items : List SaleItem) (db : DB),
      (sellLoop userId saleNumber items db).2.sales = db.sales := by
  intro items
  induction items with
  | nil => intro db; rfl
  | cons item rest ih =>
    intro db
    unfold sellLoop
    cases hfp : findProduct db item.product with
    | none => simpa using ih db
    | some p =>
      by_cases hq : p.currentStock < item.quantity
      · simp [hq]
      · simpa [hq] using ih _

theorem sellLoop_customers (userId : Nat) (saleNumber : String) :
    ∀ (items : List SaleItem) (db : DB),
      (sellLoop userId saleNumber items db).2.customers = db.customers := by
  intro items
  induction items with
  | nil => intro db; rfl
  | cons item rest ih =>
    intro db
    unfold sellLoop
    cases hfp : findProduct db item.product with
    | none => simpa using ih db
    | some p =>
      by_cases hq : p.currentStock < item.quantity
      · simp [hq]
      · simpa [hq] using ih _

theorem afterCustomerUpdate_sales (db1 : DB) (sale : Sale) :
    (afterCustomerUpdate db1 sale).sales = db1.sales := by
  cases hc : sale.customer with
  | none => simp [afterCustomerUpdate, hc]
  | some cid =>
    cases hf : findCustomer db1 cid with
    | none => simp [afterCustomerUpdate, hc, hf]
    | some c => simp [afterCustomerUpdate, hc, hf]

theorem sellLoop_append (u : Nat) (n : String) :
    ∀ (xs ys : List SaleItem) (db : DB),
      sellLoop u n (xs ++ ys) db =
        match sellLoop u n xs db with
        | (none, d) => sellLoop u n ys d
        | (some e, d) => (some e, d) := by
  intro xs
  induction xs with
  | nil => intro ys db; rfl
  | cons x xs ih =>
    intro ys db
    rw [List.cons_append]
    conv_lhs => rw [sellLoop]
    conv_rhs => rw [sellLoop]
    cases hfp : findProduct db x.product with
    | none => dsimp only; exact ih ys db
    | some p =>
      dsimp only
      by_cases hq : p.currentStock < x.quantity
      · simp [hq]
      · simp only [hq, if_false]
        exact ih ys _

theorem restockLoop_sales (userId : Nat) (reference reason : String) :
    ∀ (items : List Restock) (db : DB),
      (restockLoop userId reference reason items db).sales = db.sales := by
  intro items
  induction items with
  | nil => intro db; rfl
  | cons item rest ih =>
    intro db
    unfold restockLoop
    cases hfp : findProduct db item.product with
    | none => simpa using ih db
    | some p => simpa using ih _

theorem restockLoop_customers (userId : Nat) (reference reason : String) :
    ∀ (items : List Restock) (db : DB),
      (restockLoop userId reference reason items db).customers = db.customers := by
  intro items
  induction items with
  | nil => intro db; rfl
  | cons item rest ih =>
    intro db
    unfold restockLoop
    cases hfp : findProduct db item.product with
    | none => simpa using ih db
    | some p => simpa using ih _

theorem findProduct_id (db : DB) (pid : Nat) (p : Product)
    (h : findProduct db pid = some p) : p.id = pid := by
  have h2 := List.find?_some (show db.products.find? (fun q => q.id = pid)
    = some p from h)
  simpa using h2

@[simp] theorem findProduct_appendMovement (db : DB) (m : Movement) (pid : Nat) :
    findProduct (appendMovement db m) pid = findProduct db pid := rfl

theorem restockLoop_findProduct_of_notMem (u : Nat) (ref rsn : String) :
    ∀ (items : List Restock) (db : DB) (pid : Nat),
      pid ∉ items.map (fun i => i.product) →
      findProduct (restockLoop u ref rsn items db) pid = findProduct db pid := by
  intro items
  induction items with
  | nil => intro db pid _; rfl
  | cons item rest ih =>
    intro db pid hmem
    have hpid : pid ≠ item.product := by
      intro hc
      exact hmem (by simp [hc])
    have hrest : pid ∉ rest.map (fun i => i.product) := by
      intro hc
      exact hmem (by simp [hc])
    unfold restockLoop
    cases hfp : findProduct db item.product with
    | none => exact ih db pid hrest
    | some p =>
      have hpidne : ({ p with currentStock := p.currentStock + item.quantity
          } : Product).id ≠ pid := by
        have hid := findProduct_id db item.product p hfp
        intro hc
        exact hpid ((hid.symm.trans hc).symm)
      rw [ih _ pid hrest]
      rw [findProduct_appendMovement,
        findProduct_saveProduct_other _ _ _ hpidne]

theorem restockLoop_spec (u : Nat) (ref rsn : String) :
    ∀ (items : List Restock) (db : DB),
      (items.map (fun i => i.product)).Nodup →
      (∀ i ∈ items, (findProduct db i.product).isSome) →
      (restockLoop u ref rsn items db).movements
        = db.movements ++ items.map (expectedReturnMovement u ref rsn db) ∧
      (∀ i ∈ items, ∀ p, findProduct db i.product = some p →
        findProduct (restockLoop u ref rsn items db) i.product
          = some { p with currentStock := p.currentStock + i.quantity }) := by
  intro items
  induction items with
  | nil =>
    intro db _ _
    constructor
    · simp [restockLoop]
    · intro i hi; simp at hi
  | cons item rest ih =>
    intro db hnodup hfound
    have hhead : item.product ∉ rest.map (fun i => i.product) := by
      have := hnodup
      simp only [List.map_cons, List.nodup_cons] at this
      exact this.1
    have hrestnodup : (rest.map (fun i => i.product)).Nodup := by
      have := hnodup
      simp only [List.map_cons, List.nodup_cons] at this
      exact this.2
    obtain ⟨p, hp⟩ : ∃ p, findProduct db item.product = some p := by
      have := hfound item (by simp)
      cases hfp : findProduct db item.product with
      | none => rw [hfp] at this; simp at this
      | some p => exact ⟨p, rfl⟩
    have hpid : p.id = item.product := findProduct_id db item.product p hp
    have hpreserve : ∀ j ∈ rest, findProduct
        (appendMovement
          (saveProduct db { p with currentStock := p.currentStock + item.quantity })
          (expectedReturnMovement u ref rsn db item)) j.product
        = findProduct db j.product := by
      intro j hj
      have hne : ({ p with currentStock := p.currentStock + item.quantity
          } : Product).id ≠ j.product := by
        simp only [hpid]
        intro hc
        exact hhead (by simpa [hc] using List.mem_map_of_mem (fun i => i.product) hj)
      rw [findProduct_appendMovement, findProduct_saveProduct_other _ _ _ hne]
    have hm : (expectedReturnMovement u ref rsn db item : Movement)
        = { product := p.id, barcode := item.barcode, movementType := .returned
            quantity := item.quantity, previousStock := p.currentStock
            newStock := p.currentStock + item.quantity
            reference := some ref, notes := some rsn, performedBy := u } := by
      unfold expectedReturnMovement
      rw [hp]
      rfl
    set db1 := appendMovement
      (saveProduct db { p with currentStock := p.currentStock + item.quantity })
      (expectedReturnMovement u ref rsn db item) with hdb1
    have hstep : restockLoop u ref rsn (item :: rest) db
        = restockLoop u ref rsn rest db1 := by
      conv_lhs => rw [restockLoop]
      rw [hp]
      rw [hdb1, hm]
    have hfound1 : ∀ j ∈ rest, (findProduct db1 j.product).isSome := by
      intro j hj
      rw [hpreserve j hj]
      exact hfound j (by simp [hj])
    obtain ⟨ihmove, ihstock⟩ := ih db1 hrestnodup hfound1
    have hmapcongr : rest.map (expectedReturnMovement u ref rsn db1)
        = rest.map (expectedReturnMovement u ref rsn db) := by
      apply List.map_congr_left
      intro j hj
      unfold expectedReturnMovement
      rw [hpreserve j hj]
    constructor
    · rw [hstep, ihmove, hmapcongr]
      have hdb1m : db1.movements
          = db.movements ++ [expectedReturnMovement u ref rsn db item] := rfl
      rw [hdb1m, List.append_assoc]
      simp
    · intro i hi p0 hp0
      rcases List.mem_cons.mp hi with rfl | hi'
      · rw [hp] at hp0
        obtain rfl : p = p0 := by injection hp0
        rw [hstep,
          restockLoop_findProduct_of_notMem u ref rsn rest db1 i.product hhead]
        have : findProduct (saveProduct db
            { p with currentStock := p.currentStock + i.quantity }) i.product
            = some { p with currentStock := p.currentStock + i.quantity } :=
          findProduct_saveProduct_self db i.product p _ hp (by simpa using hpid)
        simpa [hdb1] using this
      · rw [hstep]
        exact ihstock i hi' p0 (by rw [hpreserve i hi']; exact hp0)

/-! ### C9: customer purchase statistics -/

/-- C9: `updatePurchaseStats` adds the sale total to the cumulative
`totalSpent`, adds `⌊sale.total⌋` to `loyaltyPoints`, and sets the
membership level to Platinum / Gold / Silver / Bronze at the
5000 / 2500 / 1000 / 500 thresholds on the new cumulative spend,
leaving the prior level in place below 500. -/
theorem C9_updatePurchaseStats (c : Customer) (s : Sale) :
    (updatePurchaseStats c s).totalSpent = c.totalSpent + s.total ∧
    (updatePurchaseStats c s).loyaltyPoints = c.loyaltyPoints + ⌊s.total⌋ ∧
    (updatePurchaseStats c s).membershipLevel =
      (if c.totalSpent + s.total ≥ 5000 then MembershipLevel.platinum
       else if c.totalSpent + s.total ≥ 2500 then MembershipLevel.gold
       else if c.totalSpent + s.total ≥ 1000 then MembershipLevel.silver
       else if c.totalSpent + s.total ≥ 500 then MembershipLevel.bronze
       else c.membershipLevel) :=
  ⟨rfl, rfl, rfl⟩

/-! ### C7: the totals invariant -/

/-- C7 counterexample: `POST /sales` persists the client-supplied
totals unchecked, so a request whose `total` is 999 against
`subtotal + taxTotal - discountTotal = 100` yields a persisted
`Completed` sale violating the 0.01-tolerance invariant. -/
theorem C7_counterexample :
    let item : SaleItem :=
      { product := 1, barcode := "B1", name := "Rose", quantity := 1
        pricePerUnit := 10, discountAmount := 0, taxRate := 15
        taxAmount := 3/2, subtotal := 10, total := 23/2 }
    let db : DB := ⟨[⟨1, "B1", "Rose", 50⟩], [], [], []⟩
    let req : SaleRequest :=
      { items := [item], customer := none, subtotal := 100, taxTotal := 0
        discountTotal := 0, total := 999, payments := [], notes := "" }
    let R := createSale db req 7 "S251011" 42
    (R.2.sales.map (fun s => s.status)) = [SaleStatus.completed] ∧
    (R.2.sales.map (fun s =>
        (s.subtotal, s.taxTotal, s.discountTotal, s.total)))
      = [((100 : ℚ), (0 : ℚ), (0 : ℚ), (999 : ℚ))] ∧
    ¬ |(999 : ℚ) - (100 + 0 - 0)| ≤ 1/100 := by
  refine ⟨rfl, rfl, by norm_num⟩

/-- C7 (amended): the invariant `total = subtotal + taxTotal -
discountTotal` holds (exactly, hence within any tolerance) for sales
whose totals come from `calculateTotals`; the sale-creation route
itself persists client-supplied totals without recomputing them. -/
theorem C7_calculateTotals_invariant (s : Sale) :
    (calculateTotals s).total =
      (calculateTotals s).subtotal + (calculateTotals s).taxTotal
        - (calculateTotals s).discountTotal ∧
    |(calculateTotals s).total -
      ((calculateTotals s).subtotal + (calculateTotals s).taxTotal
        - (calculateTotals s).discountTotal)| ≤ (1/100 : ℚ) := by
  constructor
  · rfl
  · have h : (calculateTotals s).total =
        (calculateTotals s).subtotal + (calculateTotals s).taxTotal
          - (calculateTotals s).discountTotal := rfl
    rw [h, sub_self, abs_zero]
    norm_num

/-! ### C2: the movement stock equations -/

/-- C2 counterexample: the admin stock override (`PUT
/products/:id/stock`) lowering stock from 10 to 5 records an
`Adjustment` movement with `quantity = 5` and `newStock = 5`, so the
claimed inbound equation `newStock = previousStock + quantity` fails
for an `Adjustment` movement. -/
theorem C2_counterexample :
    let db : DB := ⟨[⟨1, "B1", "Rose", 10⟩], [], [], []⟩
    let m : Movement :=
      ⟨1, "B1", .adjustment, 5, 10, 5, none,
        some "Stock adjustment by administrator", 7⟩
    (adjustStock db 1 5 none 7).1 = AdjustResult.ok m ∧
    (adjustStock db 1 5 none 7).2.movements = [m] ∧
    m.movementType = MovementType.adjustment ∧
    m.newStock ≠ m.previousStock + m.quantity := by
  decide

/-- C2 (amended): movements recorded by `POST /barcode/movement`
satisfy the signed stock equations (`+quantity` for Received /
Returned / Adjustment, `-quantity` for Sold / Damaged), and an
outbound movement with `previousStock < quantity` is rejected with
InsufficientStock leaving the database untouched; the `Adjustment`
movement of `PUT /products/:id/stock` instead has `newStock` equal to
the requested value and `quantity = |newStock - previousStock|`, which
subtracts the quantity whenever stock is adjusted downward. -/
theorem C2_movement_equations :
    (∀ (db : DB) (b : String) (q : Int) (mt : MovementType)
        (notes : Option String) (u : Nat) (m : Movement) (db₂ : DB),
      barcodeMovement db b q mt notes u = (.ok m, db₂) →
        m.quantity = q ∧
        ((mt = .received ∨ mt = .returned ∨ mt = .adjustment) →
          m.newStock = m.previousStock + m.quantity) ∧
        ((mt = .sold ∨ mt = .damaged) →
          m.previousStock ≥ m.quantity ∧
          m.newStock = m.previousStock - m.quantity)) ∧
    (∀ (db : DB) (b : String) (q : Int) (mt : MovementType)
        (notes : Option String) (u : Nat) (p : Product),
      ¬(b = "" ∨ q = 0) →
      db.products.find? (fun x => x.barcode = b) = some p →
      (mt = .sold ∨ mt = .damaged) →
      p.currentStock < q →
      barcodeMovement db b q mt notes u =
        (.insufficientStock p.currentStock, db)) ∧
    (∀ (db : DB) (pid : Nat) (v : Int) (notes : Option String) (u : Nat)
        (m : Movement) (db₂ : DB),
      adjustStock db pid v notes u = (.ok m, db₂) →
        m.movementType = .adjustment ∧ m.newStock = v ∧
        m.quantity = |m.newStock - m.previousStock|) := by
  refine ⟨?_, ?_, ?_⟩
  · intro db b q mt notes u m db₂ h
    unfold barcodeMovement at h
    by_cases hg : b = "" ∨ q = 0
    · rw [if_pos hg] at h; simp at h
    · rw [if_neg hg] at h
      cases hfp : db.products.find? (fun p => p.barcode = b) with
      | none => rw [hfp] at h; simp at h
      | some product =>
        rw [hfp] at h
        cases mt with
        | received =>
          simp only [Prod.mk.injEq, BarcodeMovementResult.ok.injEq] at h
          obtain ⟨rfl, -⟩ := h
          refine ⟨rfl, fun _ => rfl, fun hc => by simp at hc⟩
        | returned =>
          simp only [Prod.mk.injEq, BarcodeMovementResult.ok.injEq] at h
          obtain ⟨rfl, -⟩ := h
          refine ⟨rfl, fun _ => rfl, fun hc => by simp at hc⟩
        | adjustment =>
          simp only [Prod.mk.injEq, BarcodeMovementResult.ok.injEq] at h
          obtain ⟨rfl, -⟩ := h
          refine ⟨rfl, fun _ => rfl, fun hc => by simp at hc⟩
        | sold =>
          by_cases hlt : product.currentStock < q
          · simp [hlt] at h
          · simp only [hlt, if_false, Prod.mk.injEq,
              BarcodeMovementResult.ok.injEq] at h
            obtain ⟨rfl, -⟩ := h
            exact ⟨rfl, fun hc => by simp at hc,
              fun _ => ⟨(show product.currentStock ≥ q by omega), rfl⟩⟩
        | damaged =>
          by_cases hlt : product.currentStock < q
          · simp [hlt] at h
          · simp only [hlt, if_false, Prod.mk.injEq,
              BarcodeMovementResult.ok.injEq] at h
            obtain ⟨rfl, -⟩ := h
            exact ⟨rfl, fun hc => by simp at hc,
              fun _ => ⟨(show product.currentStock ≥ q by omega), rfl⟩⟩
        | transferred => simp at h
        | stockCount => simp at h
  · intro db b q mt notes u p hg hfp hmt hlt
    unfold barcodeMovement
    rw [if_neg hg, hfp]
    rcases hmt with rfl | rfl <;> simp [hlt]
  · intro db pid v notes u m db₂ h
    unfold adjustStock at h
    cases hfp : findProduct db pid with
    | none => rw [hfp] at h; simp at h
    | some product =>
      rw [hfp] at h
      simp only [Prod.mk.injEq, AdjustResult.ok.injEq] at h
      obtain ⟨rfl, -⟩ := h
      exact ⟨rfl, rfl, intAbs_eq_abs _⟩

/-- Witness for the amended C2: a concrete `Received` movement obeys
the inbound equation via the theorem. -/
theorem C2_movement_equations_witness :
    let db : DB := ⟨[⟨1, "B1", "Rose", 10⟩], [], [], []⟩
    let m : Movement := ⟨1, "B1", .received, 4, 10, 14, none, none, 7⟩
    m.newStock = m.previousStock + m.quantity :=
  (C2_movement_equations.1 ⟨[⟨1, "B1", "Rose", 10⟩], [], [], []⟩
    "B1" 4 .received none 7 ⟨1, "B1", .received, 4, 10, 14, none, none, 7⟩
    (⟨[⟨1, "B1", "Rose", 14⟩], [],
      [⟨1, "B1", .received, 4, 10, 14, none, none, 7⟩], []⟩)
    (by decide)).2.1 (Or.inl rfl)

/-! ### C6: status transitions -/

/-- C6 counterexample: `POST /payments/void` carries no status guard —
on a sale whose status is already `Refunded` it still voids the
payment and sets status `Voided`, so "a Refunded sale is never set to
Voided" fails. -/
theorem C6_counterexample :
    let sale : Sale :=
      { id := 1, saleNumber := "S2501010001", customer := none, items := []
        payments := [{ method := "EFTPOS", amount := 50
                       reference := some "S2501010001"
                       transactionId := some "T1" }]
        subtotal := 50, taxTotal := 0, discountTotal := 0, total := 50
        status := .refunded, notes := "", cashier := 7, refunds := []
        gatewayRefunds := [] }
    let db : DB := ⟨[], [sale], [], []⟩
    sale.status = SaleStatus.refunded ∧
    (paymentVoid db "T1" "S2501010001" true).1 = PayResult.ok ∧
    ((paymentVoid db "T1" "S2501010001" true).2.sales.map
      (fun s => s.status)) = [SaleStatus.voided] := by
  decide

/-- C6 (amended): the inventory-driven handlers do enforce the guards —
`PUT /sales/:id/void` succeeds only on a sale that is neither Voided
nor Refunded, and `PUT /sales/:id/refund` never succeeds on a Voided
sale — but `POST /payments/void` succeeds (and writes status `Voided`)
on any found sale with a matching payment, regardless of its status. -/
theorem C6_status_guards :
    (∀ (db : DB) (sid : Nat) (reason : String) (u : Nat),
      (voidSale db sid reason u).1 = .ok →
        ∃ s, findSale db sid = some s ∧
          s.status ≠ SaleStatus.voided ∧ s.status ≠ SaleStatus.refunded) ∧
    (∀ (db : DB) (sid : Nat) (reqs : List RefundItemReq)
        (reason pm : String) (u : Nat) (st : SaleStatus),
      (refundSale db sid reqs reason pm u).1 = .ok st →
        ∃ s, findSale db sid = some s ∧ s.status ≠ SaleStatus.voided) ∧
    (∀ (db : DB) (tx sn : String) (s : Sale) (i : Nat),
      findSaleByNumber db sn = some s →
      s.payments.findIdx? (fun p => p.transactionId = some tx) = some i →
      (paymentVoid db tx sn true).1 = PayResult.ok) := by
  refine ⟨?_, ?_, ?_⟩
  · intro db sid reason u h
    unfold voidSale at h
    cases hfs : findSale db sid with
    | none => rw [hfs] at h; simp at h
    | some s =>
      rw [hfs] at h
      by_cases hv : s.status = SaleStatus.voided
      · simp [hv] at h
      · by_cases hr : s.status = SaleStatus.refunded
        · simp [hv, hr] at h
        · exact ⟨s, rfl, hv, hr⟩
  · intro db sid reqs reason pm u st h
    unfold refundSale at h
    cases hfs : findSale db sid with
    | none => rw [hfs] at h; simp at h
    | some s =>
      rw [hfs] at h
      by_cases hv : s.status = SaleStatus.voided
      · simp [hv] at h
      · exact ⟨s, rfl, hv⟩
  · intro db tx sn s i hfs hidx
    unfold paymentVoid
    rw [hfs]
    simp [hidx]

/-- Witness for the amended C6: a concrete successful void implies the
sale really was neither Voided nor Refunded. -/
theorem C6_status_guards_witness :
    let sale : Sale :=
      { id := 1, saleNumber := "S2501010001", customer := none, items := []
        payments := [], subtotal := 0, taxTotal := 0, discountTotal := 0
        total := 0, status := .completed, notes := "", cashier := 7
        refunds := [], gatewayRefunds := [] }
    let db : DB := ⟨[], [sale], [], []⟩
    ∃ s, findSale db 1 = some s ∧
      s.status ≠ SaleStatus.voided ∧ s.status ≠ SaleStatus.refunded := by
  intro sale db
  exact C6_status_guards.1 db 1 "damaged goods" 7 (by decide)

/-! ### C1: mid-request insufficient stock leaves a partial state -/

/-- C1: when the per-item loop of `POST /sales` reaches an item whose
product has `currentStock < quantity`, the request answers
InsufficientStock with the product's name and available stock, and the
final state is exactly the state reached after the earlier items were
processed: the sale stays persisted, the earlier stock decrements and
`Sold` movements stay applied, and the failing item's product is left
as found — no rollback happens. -/
theorem C1_no_rollback_on_insufficient_stock
    (db : DB) (req : SaleRequest) (userId : Nat) (dayPre : String)
    (newId : Nat) (pre rest : List SaleItem) (bad : SaleItem) (p : Product)
    (dbp : DB)
    (hitems : req.items = pre ++ bad :: rest)
    (hpre : sellLoop userId (newSaleDoc db req userId dayPre newId).saleNumber
        pre
        (afterCustomerUpdate
          { db with sales := db.sales ++ [newSaleDoc db req userId dayPre newId] }
          (newSaleDoc db req userId dayPre newId)) = (none, dbp))
    (hfind : findProduct dbp bad.product = some p)
    (hstock : p.currentStock < bad.quantity) :
    createSale db req userId dayPre newId
      = (CreateResult.insufficientStock p.name p.currentStock, dbp) ∧
    newSaleDoc db req userId dayPre newId ∈ dbp.sales := by
  have hsales : dbp.sales
      = db.sales ++ [newSaleDoc db req userId dayPre newId] := by
    have h2 := congrArg (fun r : Option (String × Int) × DB => r.2.sales) hpre
    simp only [sellLoop_sales, afterCustomerUpdate_sales] at h2
    exact h2.symm
  constructor
  · simp only [createSale]
    rw [hitems, sellLoop_append, hpre]
    dsimp only
    conv_lhs => rw [sellLoop]
    rw [hfind]
    simp [hstock]
  · rw [hsales]
    exact List.mem_append_right _ (List.mem_singleton_self _)

/-- Witness for C1: the spec's own scenario — stock 5, a sale of
quantity 10 fails with InsufficientStock reporting "Rose" and 5, while
the sale document itself stays persisted. -/
theorem C1_no_rollback_witness :
    let item : SaleItem := ⟨1, "B1", "Rose", 10, 2, 0, 15, 3, 20, 23⟩
    let db : DB := ⟨[⟨1, "B1", "Rose", 5⟩], [], [], []⟩
    let req : SaleRequest := ⟨[item], none, 20, 3, 0, 23, [], ""⟩
    let sale := newSaleDoc db req 7 "S251011" 42
    let dbp : DB := ⟨[⟨1, "B1", "Rose", 5⟩], [sale], [], []⟩
    createSale db req 7 "S251011" 42
      = (CreateResult.insufficientStock "Rose" 5, dbp) ∧ sale ∈ dbp.sales := by
  intro item db req sale dbp
  exact C1_no_rollback_on_insufficient_stock db req 7 "S251011" 42
    [] [] item ⟨1, "B1", "Rose", 5⟩ dbp rfl rfl rfl (by decide)

/-! ### C10: the customer update precedes the stock loop -/

/-- C10: in `POST /sales` with a customer attached, the customer's
purchase statistics are updated and saved before the per-item stock
loop runs, and the loop never writes customers — so whatever the loop
outcome (including a mid-loop InsufficientStock failure), the final
state holds the updated customer. -/
theorem C10_customer_update_not_rolled_back
    (db : DB) (req : SaleRequest) (userId : Nat) (dayPre : String)
    (newId : Nat) (cid : Nat) (c : Customer)
    (hcust : req.customer = some cid)
    (hfind : findCustomer db cid = some c) :
    findCustomer (createSale db req userId dayPre newId).2 cid
      = some (updatePurchaseStats c (newSaleDoc db req userId dayPre newId)) := by
  have hid : c.id = cid := by
    have h := List.find?_some (show db.customers.find? (fun d => d.id = cid)
      = some c from hfind)
    simpa using h
  have hcust' : (newSaleDoc db req userId dayPre newId).customer = some cid :=
    hcust
  have hfind1 : findCustomer
      { db with sales := db.sales ++ [newSaleDoc db req userId dayPre newId] }
      cid = some c := hfind
  have hafter : afterCustomerUpdate
      { db with sales := db.sales ++ [newSaleDoc db req userId dayPre newId] }
      (newSaleDoc db req userId dayPre newId)
      = saveCustomer
          { db with sales := db.sales ++ [newSaleDoc db req userId dayPre newId] }
          (updatePurchaseStats c (newSaleDoc db req userId dayPre newId)) := by
    simp [afterCustomerUpdate, hcust', hfind1]
  have hsave : findCustomer
      (saveCustomer
        { db with sales := db.sales ++ [newSaleDoc db req userId dayPre newId] }
        (updatePurchaseStats c (newSaleDoc db req userId dayPre newId))) cid
      = some (updatePurchaseStats c (newSaleDoc db req userId dayPre newId)) :=
    findCustomer_saveCustomer_self _ cid c _ hfind1 hid
  have hcustomers : (createSale db req userId dayPre newId).2.customers
      = (afterCustomerUpdate
          { db with sales := db.sales ++ [newSaleDoc db req userId dayPre newId] }
          (newSaleDoc db req userId dayPre newId)).customers := by
    simp only [createSale]
    cases hloop : sellLoop userId (newSaleDoc db req userId dayPre newId).saleNumber
        req.items
        (afterCustomerUpdate
          { db with sales := db.sales ++ [newSaleDoc db req userId dayPre newId] }
          (newSaleDoc db req userId dayPre newId)) with
    | mk r db3 =>
      have h2 := congrArg (fun x : Option (String × Int) × DB => x.2.customers)
        hloop
      simp only [sellLoop_customers] at h2
      cases r with
      | none => simpa using h2.symm
      | some e => cases e with | mk nm av => simpa using h2.symm
  show (createSale db req userId dayPre newId).2.customers.find?
      (fun d => d.id = cid)
    = some (updatePurchaseStats c (newSaleDoc db req userId dayPre newId))
  rw [hcustomers, hafter]
  exact hsave

/-- Witness for C10: a concrete customer's statistics end up updated
after sale creation. -/
theorem C10_customer_update_witness :
    let c : Customer := ⟨2, .regular, 0, [], 0⟩
    let db : DB := ⟨[], [], [], [c]⟩
    let req : SaleRequest := ⟨[], some 2, 600, 0, 0, 600, [], ""⟩
    findCustomer (createSale db req 7 "S251011" 42).2 2
      = some (updatePurchaseStats c (newSaleDoc db req 7 "S251011" 42)) := by
  intro c db req
  exact C10_customer_update_not_rolled_back db req 7 "S251011" 42 2 c rfl rfl

/-! ### C4: voiding a sale -/

/-- C4: `PUT /sales/:id/void` fails with NotFound when the sale is
missing and with the invalid-state errors when it is already Voided or
Refunded; otherwise it sets status `Voided`, appends the reason to the
notes, and for every original line item (products distinct and
present) increments that product's stock by the item quantity and
appends exactly one `Returned` movement per item, each referencing
`VOID-<saleNumber>`. -/
theorem C4_voidSale (db : DB) (sid : Nat) (reason : String) (u : Nat) :
    (findSale db sid = none → voidSale db sid reason u = (.notFound, db)) ∧
    (∀ s, findSale db sid = some s → s.status = SaleStatus.voided →
      voidSale db sid reason u = (.alreadyVoided, db)) ∧
    (∀ s, findSale db sid = some s → s.status = SaleStatus.refunded →
      voidSale db sid reason u = (.cannotVoidRefunded, db)) ∧
    (∀ s, findSale db sid = some s →
      s.status ≠ SaleStatus.voided → s.status ≠ SaleStatus.refunded →
      (s.items.map (fun i => i.product)).Nodup →
      (∀ i ∈ s.items, (findProduct db i.product).isSome) →
      (voidSale db sid reason u).1 = .ok ∧
      findSale (voidSale db sid reason u).2 sid
        = some { s with
            status := .voided
            notes := (if s.notes ≠ "" then s.notes ++ " | " else "")
              ++ "VOIDED: " ++ reason } ∧
      (voidSale db sid reason u).2.movements
        = db.movements
          ++ (s.items.map (fun i => (⟨i.product, i.barcode, i.quantity⟩ : Restock))).map
              (expectedReturnMovement u ("VOID-" ++ s.saleNumber) reason db) ∧
      (∀ i ∈ s.items, ∀ p, findProduct db i.product = some p →
        findProduct (voidSale db sid reason u).2 i.product
          = some { p with currentStock := p.currentStock + i.quantity })) := by
  refine ⟨?_, ?_, ?_, ?_⟩
  · intro h
    unfold voidSale
    rw [h]
  · intro s hfs hv
    unfold voidSale
    rw [hfs]
    simp [hv]
  · intro s hfs hr
    unfold voidSale
    rw [hfs]
    by_cases hv : s.status = SaleStatus.voided
    · rw [hv] at hr; exact absurd hr.symm (by simp)
    · simp [hv, hr]
  · intro s hfs hv hr hnodup hfound
    have hsid : s.id = sid := by
      have h2 := List.find?_some (show db.sales.find? (fun t => t.id = sid)
        = some s from hfs)
      simpa using h2
    have hstep : voidSale db sid reason u
        = (.ok, restockLoop u ("VOID-" ++ s.saleNumber) reason
            (s.items.map (fun i => ⟨i.product, i.barcode, i.quantity⟩))
            (saveSale db { s with
              status := .voided
              notes := (if s.notes ≠ "" then s.notes ++ " | " else "")
                ++ "VOIDED: " ++ reason })) := by
      unfold voidSale
      rw [hfs]
      simp [hv, hr]
    have hnodup' : ((s.items.map
        (fun i => (⟨i.product, i.barcode, i.quantity⟩ : Restock))).map
          (fun r => r.product)).Nodup := by
      rw [List.map_map]
      exact hnodup
    have hfound' : ∀ r ∈ s.items.map
        (fun i => (⟨i.product, i.barcode, i.quantity⟩ : Restock)),
        (findProduct (saveSale db { s with
          status := .voided
          notes := (if s.notes ≠ "" then s.notes ++ " | " else "")
            ++ "VOIDED: " ++ reason }) r.product).isSome := by
      intro r hr'
      obtain ⟨i, hi, rfl⟩ := List.mem_map.mp hr'
      exact hfound i hi
    obtain ⟨hmove, hstock⟩ := restockLoop_spec u ("VOID-" ++ s.saleNumber) reason
      (s.items.map (fun i => ⟨i.product, i.barcode, i.quantity⟩))
      (saveSale db { s with
        status := .voided
        notes := (if s.notes ≠ "" then s.notes ++ " | " else "")
          ++ "VOIDED: " ++ reason })
      hnodup' hfound'
    refine ⟨by rw [hstep], ?_, ?_, ?_⟩
    · show (voidSale db sid reason u).2.sales.find? (fun t => t.id = sid) = _
      rw [hstep]
      have h2 : (restockLoop u ("VOID-" ++ s.saleNumber) reason
          (s.items.map (fun i => ⟨i.product, i.barcode, i.quantity⟩))
          (saveSale db { s with
            status := .voided
            notes := (if s.notes ≠ "" then s.notes ++ " | " else "")
              ++ "VOIDED: " ++ reason })).sales
          = (saveSale db { s with
              status := .voided
              notes := (if s.notes ≠ "" then s.notes ++ " | " else "")
                ++ "VOIDED: " ++ reason }).sales := restockLoop_sales _ _ _ _ _
      show (restockLoop _ _ _ _ _).sales.find? _ = _
      rw [h2]
      exact findSale_saveSale_self db sid s _ hfs hsid
    · rw [hstep]
      exact hmove
    · intro i hi p hp
      rw [hstep]
      exact hstock ⟨i.product, i.barcode, i.quantity⟩
        (List.mem_map_of_mem _ hi) p hp

/-- Witness for C4: voiding a completed two-item sale succeeds,
restores both products' stock, appends two `Returned` movements and
marks the sale `Voided`. -/
theorem C4_voidSale_witness :
    let itemA : SaleItem := ⟨1, "B1", "Rose", 2, 10, 0, 15, 3, 20, 23⟩
    let itemB : SaleItem := ⟨2, "B2", "Fern", 1, 30, 0, 15, 9/2, 30, 69/2⟩
    let s : Sale := ⟨5, "S2503010001", none, [itemA, itemB], [], 50, 15/2, 0,
      115/2, .completed, "", 7, [], []⟩
    let db : DB := ⟨[⟨1, "B1", "Rose", 3⟩, ⟨2, "B2", "Fern", 8⟩], [s], [], []⟩
    (voidSale db 5 "customer changed mind" 9).1 = VoidResult.ok ∧
    (∀ p, findProduct db 1 = some p →
      findProduct (voidSale db 5 "customer changed mind" 9).2 1
        = some { p with currentStock := p.currentStock + 2 }) := by
  intro itemA itemB s db
  have h := (C4_voidSale db 5 "customer changed mind" 9).2.2.2 s rfl
    (by decide) (by decide) (by decide) (by decide)
  exact ⟨h.1, fun p hp => h.2.2.2 itemA (by simp) p hp⟩

/-! ### C5: refunding a sale -/

theorem buildRefundItems_ok_sound (saleItems : List SaleItem) :
    ∀ (reqs : List RefundItemReq) (ritems : List RefundedItem),
      buildRefundItems saleItems reqs = .ok ritems →
      ∀ r ∈ reqs, ∃ oi,
        saleItems.find? (fun i => i.product = r.product) = some oi ∧
        r.quantity ≤ oi.quantity := by
  intro reqs
  induction reqs with
  | nil => intro ritems _ r hr; simp at hr
  | cons r0 rest ih =>
    intro ritems h r hr
    unfold buildRefundItems at h
    cases hfind : saleItems.find? (fun i => i.product = r0.product) with
    | none => rw [hfind] at h; simp at h
    | some oi =>
      rw [hfind] at h
      dsimp only at h
      by_cases hq : r0.quantity > oi.quantity
      · rw [if_pos hq] at h; simp at h
      · rw [if_neg hq] at h
        cases hrest : buildRefundItems saleItems rest with
        | ok items =>
          rcases List.mem_cons.mp hr with rfl | hr'
          · exact ⟨oi, hfind, not_lt.mp hq⟩
          · exact ih items hrest r hr'
        | notInSale pid => rw [hrest] at h; simp at h
        | tooMany nm => rw [hrest] at h; simp at h

/-- C5: `PUT /sales/:id/refund` fails on a missing sale, on a Voided
sale, and whenever a requested product is absent from the original
sale or its quantity exceeds the original (soundness: a success
implies every requested item matched an original item with a
quantity within bounds); on success it appends a refund record whose
total is the item refund total plus proportional tax, sets status
`Refunded` exactly when every original item is fully refunded by the
request and `Partially Refunded` otherwise, and (products distinct and
present) increments each refunded product's stock by the refund
quantity and appends one `Returned` movement per refunded item
referencing `REFUND-<saleNumber>`. -/
theorem C5_refundSale (db : DB) (sid : Nat) (reqs : List RefundItemReq)
    (rsn pm : String) (u : Nat) :
    (findSale db sid = none →
      refundSale db sid reqs rsn pm u = (.notFound, db)) ∧
    (∀ s, findSale db sid = some s → s.status = SaleStatus.voided →
      refundSale db sid reqs rsn pm u = (.cannotRefundVoided, db)) ∧
    (∀ st, (refundSale db sid reqs rsn pm u).1 = .ok st →
      ∃ s, findSale db sid = some s ∧ s.status ≠ SaleStatus.voided ∧
        ∀ r ∈ reqs, ∃ oi,
          s.items.find? (fun i => i.product = r.product) = some oi ∧
          r.quantity ≤ oi.quantity) ∧
    (∀ s ritems, findSale db sid = some s →
      s.status ≠ SaleStatus.voided →
      buildRefundItems s.items reqs = .ok ritems →
      (ritems.map (fun i => i.product)).Nodup →
      (∀ i ∈ ritems, (findProduct db i.product).isSome) →
      (refundSale db sid reqs rsn pm u).1
        = .ok (if allItemsRefunded s.items ritems then SaleStatus.refunded
               else SaleStatus.partRefunded) ∧
      findSale (refundSale db sid reqs rsn pm u).2 sid
        = some { s with
            refunds := s.refunds ++ [⟨ritems,
              (ritems.map (fun i => i.refundAmount)).sum
                + (ritems.map (fun i => i.refundAmount * (i.taxRate / 100))).sum,
              rsn, u, pm⟩]
            status := if allItemsRefunded s.items ritems then SaleStatus.refunded
              else SaleStatus.partRefunded } ∧
      (refundSale db sid reqs rsn pm u).2.movements
        = db.movements
          ++ (ritems.map (fun i => (⟨i.product, i.barcode, i.quantity⟩ : Restock))).map
              (expectedReturnMovement u ("REFUND-" ++ s.saleNumber) rsn db) ∧
      (∀ i ∈ ritems, ∀ p, findProduct db i.product = some p →
        findProduct (refundSale db sid reqs rsn pm u).2 i.product
          = some { p with currentStock := p.currentStock + i.quantity })) := by
  refine ⟨?_, ?_, ?_, ?_⟩
  · intro h
    unfold refundSale
    rw [h]
  · intro s hfs hv
    unfold refundSale
    rw [hfs]
    simp [hv]
  · intro st h
    unfold refundSale at h
    cases hfs : findSale db sid with
    | none => rw [hfs] at h; simp at h
    | some s =>
      rw [hfs] at h
      by_cases hv : s.status = SaleStatus.voided
      · simp [hv] at h
      · refine ⟨s, rfl, hv, ?_⟩
        dsimp only at h
        rw [if_neg hv] at h
        cases hbuild : buildRefundItems s.items reqs with
        | ok ritems => exact buildRefundItems_ok_sound s.items reqs ritems hbuild
        | notInSale pid => rw [hbuild] at h; simp at h
        | tooMany nm => rw [hbuild] at h; simp at h
  · intro s ritems hfs hv hbuild hnodup hfound
    have hsid : s.id = sid := by
      have h2 := List.find?_some (show db.sales.find? (fun t => t.id = sid)
        = some s from hfs)
      simpa using h2
    have hstep : refundSale db sid reqs rsn pm u
        = (.ok (if allItemsRefunded s.items ritems then SaleStatus.refunded
                else SaleStatus.partRefunded),
           restockLoop u ("REFUND-" ++ s.saleNumber) rsn
            (ritems.map (fun i => ⟨i.product, i.barcode, i.quantity⟩))
            (saveSale db { s with
              refunds := s.refunds ++ [⟨ritems,
                (ritems.map (fun i => i.refundAmount)).sum
                  + (ritems.map (fun i => i.refundAmount * (i.taxRate / 100))).sum,
                rsn, u, pm⟩]
              status := if allItemsRefunded s.items ritems then SaleStatus.refunded
                else SaleStatus.partRefunded })) := by
      unfold refundSale
      rw [hfs]
      simp [hv, hbuild]
    have hnodup' : ((ritems.map
        (fun i => (⟨i.product, i.barcode, i.quantity⟩ : Restock))).map
          (fun r => r.product)).Nodup := by
      rw [List.map_map]
      exact hnodup
    have hfound' : ∀ r ∈ ritems.map
        (fun i => (⟨i.product, i.barcode, i.quantity⟩ : Restock)),
        (findProduct (saveSale db { s with
          refunds := s.refunds ++ [⟨ritems,
            (ritems.map (fun i => i.refundAmount)).sum
              + (ritems.map (fun i => i.refundAmount * (i.taxRate / 100))).sum,
            rsn, u, pm⟩]
          status := if allItemsRefunded s.items ritems then SaleStatus.refunded
            else SaleStatus.partRefunded }) r.product).isSome := by
      intro r hr'
      obtain ⟨i, hi, rfl⟩ := List.mem_map.mp hr'
      exact hfound i hi
    obtain ⟨hmove, hstock⟩ := restockLoop_spec u ("REFUND-" ++ s.saleNumber) rsn
      (ritems.map (fun i => ⟨i.product, i.barcode, i.quantity⟩))
      (saveSale db { s with
        refunds := s.refunds ++ [⟨ritems,
          (ritems.map (fun i => i.refundAmount)).sum
            + (ritems.map (fun i => i.refundAmount * (i.taxRate / 100))).sum,
          rsn, u, pm⟩]
        status := if allItemsRefunded s.items ritems then SaleStatus.refunded
          else SaleStatus.partRefunded })
      hnodup' hfound'
    refine ⟨by rw [hstep], ?_, ?_, ?_⟩
    · show (refundSale db sid reqs rsn pm u).2.sales.find? (fun t => t.id = sid)
        = _
      rw [hstep]
      show (restockLoop _ _ _ _ _).sales.find? _ = _
      rw [restockLoop_sales]
      exact findSale_saveSale_self db sid s _ hfs hsid
    · rw [hstep]
      exact hmove
    · intro i hi p hp
      rw [hstep]
      exact hstock ⟨i.product, i.barcode, i.quantity⟩
        (List.mem_map_of_mem _ hi) p hp

/-- Witness for C5: refunding 1 of the 2 units of the only line item
leaves the sale `Partially Refunded`. -/
theorem C5_refundSale_witness :
    let item : SaleItem := ⟨1, "B1", "Rose", 2, 10, 0, 15, 3, 20, 23⟩
    let s : Sale := ⟨5, "S2503010001", none, [item], [], 20, 3, 0, 23,
      .completed, "", 7, [], []⟩
    let db : DB := ⟨[⟨1, "B1", "Rose", 3⟩], [s], [], []⟩
    (refundSale db 5 [⟨1, 1⟩] "too many" "Cash" 9).1
      = RefundResult.ok SaleStatus.partRefunded := by
  intro item s db
  exact ((C5_refundSale db 5 [⟨1, 1⟩] "too many" "Cash" 9).2.2.2 s
    [⟨1, "B1", "Rose", 1, 10, 15, (10 : ℚ) * ((1 : Int) : ℚ)⟩]
    rfl (by decide) rfl (by decide) (by decide)).1

/-! ### Digit and string lemmas for the sale-number and barcode
generators -/

theorem digitChar_toNat {d : Nat} (h : d < 10) :
    (digitChar d).toNat = 48 + d := by
  interval_cases d <;> decide

theorem digitChar_isDigit {d : Nat} (h : d < 10) :
    (digitChar d).isDigit = true := by
  interval_cases d <;> decide

theorem digitChar_lt_digitChar {a b : Nat} (ha : a < 10) (hb : b < 10) :
    digitChar a < digitChar b ↔ a < b := by
  interval_cases a <;> interval_cases b <;> decide

theorem natDigitsAux_congr :
    ∀ f g n, 1 ≤ f → 1 ≤ g → n < 10 ^ f → n < 10 ^ g →
      natDigitsAux f n = natDigitsAux g n := by
  intro f
  induction f with
  | zero => intro g n h; omega
  | succ f ihf =>
    intro g n _ hg hnf hng
    cases g with
    | zero => omega
    | succ g =>
      unfold natDigitsAux
      by_cases h10 : n < 10
      · simp [h10]
      · simp only [h10, if_false]
        have hf1 : 1 ≤ f := by
          by_contra hc
          have : f = 0 := by omega
          subst this
          simp at hnf
          omega
        have hg1 : 1 ≤ g := by
          by_contra hc
          have : g = 0 := by omega
          subst this
          simp at hng
          omega
        have hbf : n / 10 < 10 ^ f := by
          rw [Nat.div_lt_iff_lt_mul (by norm_num)]
          calc n < 10 ^ (f + 1) := hnf
            _ = 10 ^ f * 10 := by rw [pow_succ]
        have hbg : n / 10 < 10 ^ g := by
          rw [Nat.div_lt_iff_lt_mul (by norm_num)]
          calc n < 10 ^ (g + 1) := hng
            _ = 10 ^ g * 10 := by rw [pow_succ]
        rw [ihf g (n / 10) hf1 hg1 hbf hbg]

theorem natDigitsAux_bounded :
    ∀ f n, ∀ d ∈ natDigitsAux f n, d < 10 := by
  intro f
  induction f with
  | zero => intro n d hd; simp [natDigitsAux] at hd
  | succ f ih =>
    intro n d hd
    unfold natDigitsAux at hd
    by_cases h10 : n < 10
    · rw [if_pos h10] at hd
      simp at hd
      omega
    · rw [if_neg h10] at hd
      rcases List.mem_append.mp hd with h | h
      · exact ih (n / 10) d h
      · simp at h
        subst h
        exact Nat.mod_lt _ (by norm_num)

theorem natDigitsAux_length_le : ∀ f n, (natDigitsAux f n).length ≤ f := by
  intro f
  induction f with
  | zero => intro n; simp [natDigitsAux]
  | succ f ih =>
    intro n
    unfold natDigitsAux
    by_cases h10 : n < 10
    · simp [h10]
    · simp only [h10, if_false, List.length_append, List.length_cons,
        List.length_nil]
      have := ih (n / 10)
      omega

theorem natDigitsAux_ne_nil : ∀ f n, 1 ≤ f → natDigitsAux f n ≠ [] := by
  intro f n hf
  cases f with
  | zero => omega
  | succ f =>
    unfold natDigitsAux
    by_cases h10 : n < 10
    · simp [h10]
    · simp [h10]

theorem foldl_digits_acc :
    ∀ (l : List Nat) (a : Nat),
      l.foldl (fun acc d => acc * 10 + d) a = a * 10 ^ l.length + digitsValN l := by
  intro l
  induction l with
  | nil => intro a; simp [digitsValN]
  | cons d l ih =>
    intro a
    have h0 : 0 * 10 + d = d := by omega
    have hd : digitsValN (d :: l) = d * 10 ^ l.length + digitsValN l := by
      unfold digitsValN
      simp only [List.foldl_cons]
      rw [h0, ih d]
      rfl
    simp only [List.foldl_cons]
    rw [ih (a * 10 + d), hd]
    simp only [List.length_cons, pow_succ]
    ring

theorem digitsValN_cons (d : Nat) (l : List Nat) :
    digitsValN (d :: l) = d * 10 ^ l.length + digitsValN l := by
  unfold digitsValN
  simp only [List.foldl_cons]
  have h0 : 0 * 10 + d = d := by omega
  rw [h0, foldl_digits_acc l d]
  rfl

theorem digitsValN_lt :
    ∀ l : List Nat, (∀ d ∈ l, d < 10) → digitsValN l < 10 ^ l.length := by
  intro l
  induction l with
  | nil => intro _; simp [digitsValN]
  | cons d l ih =>
    intro hb
    rw [digitsValN_cons]
    have h1 : digitsValN l < 10 ^ l.length := ih (fun x hx => hb x (by simp [hx]))
    have h2 : d < 10 := hb d (by simp)
    have h3 : (d + 1) * 10 ^ l.length ≤ 10 * 10 ^ l.length :=
      Nat.mul_le_mul_right _ (by omega)
    rw [Nat.succ_mul] at h3
    calc d * 10 ^ l.length + digitsValN l < d * 10 ^ l.length + 10 ^ l.length := by omega
      _ ≤ 10 * 10 ^ l.length := by omega
      _ = 10 ^ (l.length + 1) := by rw [pow_succ]; ring
      _ = 10 ^ (d :: l).length := by simp

theorem digitsValN_natDigitsAux :
    ∀ f n, 1 ≤ f → n < 10 ^ f → digitsValN (natDigitsAux f n) = n := by
  intro f
  induction f with
  | zero => intro n h; omega
  | succ f ih =>
    intro n _ hb
    unfold natDigitsAux
    by_cases h10 : n < 10
    · simp [h10, digitsValN]
    · simp only [h10, if_false]
      have hf1 : 1 ≤ f := by
        by_contra hc
        have : f = 0 := by omega
        subst this
        simp at hb
        omega
      have hdiv : n / 10 < 10 ^ f := by
        rw [Nat.div_lt_iff_lt_mul (by norm_num)]
        calc n < 10 ^ (f + 1) := hb
          _ = 10 ^ f * 10 := by rw [pow_succ]
      unfold digitsValN
      rw [List.foldl_append]
      show (natDigitsAux f (n / 10)).foldl _ 0 * 10 + n % 10 = n
      have := ih (n / 10) hf1 hdiv
      unfold digitsValN at this
      rw [this]
      omega

theorem digitsValN_replicate_zero_append :
    ∀ (m : Nat) (l : List Nat),
      digitsValN (List.replicate m 0 ++ l) = digitsValN l := by
  intro m
  induction m with
  | zero => intro l; simp
  | succ m ih =>
    intro l
    rw [List.replicate_succ]
    show digitsValN (0 :: (List.replicate m 0 ++ l)) = digitsValN l
    unfold digitsValN
    simp only [List.foldl_cons]
    exact ih l

theorem foldl_map_digitChar :
    ∀ (l : List Nat) (a : Nat), (∀ d ∈ l, d < 10) →
      (l.map digitChar).foldl (fun n c => n * 10 + (c.toNat - 48)) a
        = l.foldl (fun acc d => acc * 10 + d) a := by
  intro l
  induction l with
  | nil => intro a _; rfl
  | cons d l ih =>
    intro a hb
    simp only [List.map_cons, List.foldl_cons]
    rw [digitChar_toNat (hb d (by simp))]
    have : 48 + d - 48 = d := by omega
    rw [this]
    exact ih _ (fun x hx => hb x (by simp [hx]))

theorem takeWhile_all {α : Type} (pred : α → Bool) :
    ∀ l : List α, (∀ c ∈ l, pred c = true) → l.takeWhile pred = l := by
  intro l
  induction l with
  | nil => intro _; rfl
  | cons c l ih =>
    intro h
    rw [List.takeWhile_cons]
    simp [h c (by simp), ih (fun x hx => h x (by simp [hx]))]

theorem nat_lt_pow_succ (n : Nat) : n < 10 ^ (n + 1) := by
  have h1 : n < 10 ^ n := Nat.lt_pow_self (by norm_num) n
  have h2 : 10 ^ n ≤ 10 ^ (n + 1) := Nat.pow_le_pow_right (by norm_num) (by omega)
  omega

theorem natToString_data_eq4 {n : Nat} (h : n < 10000) :
    (natToString n).data = (natDigitsAux 4 n).map digitChar := by
  show ((natDigitsAux (n + 1) n).map digitChar) = _
  rw [natDigitsAux_congr (n + 1) 4 n (by omega) (by omega)
    (nat_lt_pow_succ n) (by norm_num [h])]

theorem natToString_length_le {n : Nat} (h : n < 10000) :
    (natToString n).length ≤ 4 := by
  show (natToString n).data.length ≤ 4
  rw [natToString_data_eq4 h, List.length_map]
  exact natDigitsAux_length_le 4 n

theorem pad4_data {n : Nat} (h : n < 10000) :
    (pad4 n).data = (padDigits4 n).map digitChar := by
  unfold pad4 padStart padDigits4
  rw [String.data_append]
  show List.replicate (4 - (natToString n).length) '0'
      ++ (natToString n).data = _
  rw [natToString_data_eq4 h, List.map_append, List.map_replicate]
  have hlen : (natToString n).length = (natDigitsAux 4 n).length := by
    show (natToString n).data.length = _
    rw [natToString_data_eq4 h, List.length_map]
  rw [hlen]
  rfl

theorem padDigits4_bounded (n : Nat) : ∀ d ∈ padDigits4 n, d < 10 := by
  intro d hd
  unfold padDigits4 at hd
  rcases List.mem_append.mp hd with h | h
  · have := List.eq_of_mem_replicate h
    omega
  · exact natDigitsAux_bounded 4 n d h

theorem padDigits4_length {n : Nat} (h : n < 10000) :
    (padDigits4 n).length = 4 := by
  unfold padDigits4
  rw [List.length_append, List.length_replicate]
  have h1 := natDigitsAux_length_le 4 n
  have h2 : (natDigitsAux 4 n).length ≠ 0 := by
    intro hc
    exact natDigitsAux_ne_nil 4 n (by omega) (List.eq_nil_of_length_eq_zero hc)
  omega

theorem padDigits4_val {n : Nat} (h : n < 10000) :
    digitsValN (padDigits4 n) = n := by
  unfold padDigits4
  rw [digitsValN_replicate_zero_append]
  exact digitsValN_natDigitsAux 4 n (by omega) (by norm_num [h])

theorem pad4_length {n : Nat} (h : n < 10000) : (pad4 n).data.length = 4 := by
  rw [pad4_data h, List.length_map]
  exact padDigits4_length h

theorem pad4_digits {n : Nat} (h : n < 10000) :
    ∀ c ∈ (pad4 n).data, c.isDigit = true := by
  intro c hc
  rw [pad4_data h] at hc
  obtain ⟨d, hd, rfl⟩ := List.mem_map.mp hc
  exact digitChar_isDigit (padDigits4_bounded n d hd)

theorem parseIntPrefix_pad4 {n : Nat} (h : n < 10000) :
    parseIntPrefix (pad4 n) = some n := by
  unfold parseIntPrefix
  rw [takeWhile_all _ _ (pad4_digits h)]
  have hne : (pad4 n).data.isEmpty = false := by
    have := pad4_length h
    cases hd : (pad4 n).data with
    | nil => rw [hd] at this; simp at this
    | cons c l => rfl
  simp only [hne, Bool.false_eq_true, if_false]
  congr 1
  show (pad4 n).data.foldl (fun n c => n * 10 + (c.toNat - 48)) 0 = n
  rw [pad4_data h, foldl_map_digitChar _ _ (padDigits4_bounded n)]
  have := padDigits4_val h
  unfold digitsValN at this
  exact this

theorem map_digitChar_lt :
    ∀ (a b : List Nat), a.length = b.length →
      (∀ d ∈ a, d < 10) → (∀ d ∈ b, d < 10) →
      digitsValN a < digitsValN b →
      List.Lex (· < ·) (a.map digitChar) (b.map digitChar) := by
  intro a
  induction a with
  | nil =>
    intro b hlen _ _ hv
    cases b with
    | nil => simp [digitsValN] at hv
    | cons y ys => simp at hlen
  | cons x xs ih =>
    intro b hlen hba hbb hv
    cases b with
    | nil => simp at hlen
    | cons y ys =>
      have hxs : xs.length = ys.length := by simpa using hlen
      have hx10 : x < 10 := hba x (by simp)
      have hy10 : y < 10 := hbb y (by simp)
      rcases lt_trichotomy x y with hxy | hxy | hxy
      · exact List.Lex.rel ((digitChar_lt_digitChar hx10 hy10).mpr hxy)
      · subst hxy
        refine List.Lex.cons ?_
        apply ih ys hxs (fun d hd => hba d (by simp [hd]))
          (fun d hd => hbb d (by simp [hd]))
        rw [digitsValN_cons, digitsValN_cons, hxs] at hv
        omega
      · exfalso
        rw [digitsValN_cons, digitsValN_cons] at hv
        have h1 : digitsValN ys < 10 ^ ys.length :=
          digitsValN_lt ys (fun d hd => hbb d (by simp [hd]))
        have h3 : (y + 1) * 10 ^ ys.length ≤ x * 10 ^ ys.length :=
          Nat.mul_le_mul_right _ (by omega)
        rw [Nat.succ_mul] at h3
        rw [hxs] at hv
        omega

theorem pad4_lt {j k : Nat} (hjk : j < k) (hk : k < 10000) :
    pad4 j < pad4 k := by
  rw [String.lt_iff_toList_lt]
  show List.Lex (· < ·) (pad4 j).data (pad4 k).data
  have hj : j < 10000 := by omega
  rw [pad4_data hj, pad4_data hk]
  apply map_digitChar_lt _ _ (by rw [padDigits4_length hj, padDigits4_length hk])
    (padDigits4_bounded j) (padDigits4_bounded k)
  rw [padDigits4_val hj, padDigits4_val hk]
  exact hjk

theorem list_lex_append_left :
    ∀ (p a b : List Char), List.Lex (· < ·) a b →
      List.Lex (· < ·) (p ++ a) (p ++ b) := by
  intro p
  induction p with
  | nil => intro a b h; simpa using h
  | cons c p ih =>
    intro a b h
    exact List.Lex.cons (ih a b h)

theorem string_lt_append_left (p a b : String) (h : a < b) :
    p ++ a < p ++ b := by
  rw [String.lt_iff_toList_lt]
  show List.Lex (· < ·) (p ++ a).data (p ++ b).data
  rw [String.data_append, String.data_append]
  exact list_lex_append_left p.data a.data b.data
    (String.lt_iff_toList_lt.mp h)

theorem maxStr?_append_singleton (l : List String) (s : String) :
    maxStr? (l ++ [s])
      = match maxStr? l with
        | none => some s
        | some m => if m < s then some s else some m := by
  unfold maxStr?
  rw [List.foldl_append]
  rfl

theorem maxStr?_genPool (p : String) :
    ∀ k, 1 ≤ k → k ≤ 9999 → maxStr? (genPool p k) = some (p ++ pad4 k) := by
  intro k
  induction k with
  | zero => intro h; omega
  | succ k ih =>
    intro _ hk
    unfold genPool
    rw [List.range'_1_concat, List.map_append]
    show maxStr? ((genPool p k) ++ [p ++ pad4 (1 + k)]) = _
    rw [maxStr?_append_singleton]
    cases Nat.eq_zero_or_pos k with
    | inl h0 =>
      subst h0
      simp [genPool, maxStr?]
    | inr hpos =>
      rw [ih hpos (by omega)]
      dsimp only
      have hlt : p ++ pad4 k < p ++ pad4 (1 + k) :=
        string_lt_append_left p _ _ (pad4_lt (by omega) (by omega))
      rw [if_pos hlt]
      have h1k : 1 + k = k + 1 := by omega
      rw [h1k]

theorem strStartsWith_append_self (p s : String) :
    strStartsWith p (p ++ s) = true := by
  unfold strStartsWith
  rw [String.data_append]
  rw [List.isPrefixOf_iff_prefix]
  exact List.prefix_append _ _

theorem filter_pool (p : String) (base : List String)
    (hbase : ∀ s ∈ base, strStartsWith p s = false) (k : Nat) :
    (base ++ genPool p k).filter (fun s => strStartsWith p s)
      = genPool p k := by
  rw [List.filter_append]
  have h1 : base.filter (fun s => strStartsWith p s) = [] := by
    rw [List.filter_eq_nil_iff]
    intro s hs
    simp [hbase s hs]
  have h2 : (genPool p k).filter (fun s => strStartsWith p s) = genPool p k := by
    rw [List.filter_eq_self]
    intro s hs
    obtain ⟨j, _, rfl⟩ := List.mem_map.mp hs
    simp [strStartsWith_append_self]
  rw [h1, h2]
  rfl

theorem takeLast_append_of_length (p s : String) (h : s.data.length = 4) :
    takeLast (p ++ s) 4 = s := by
  unfold takeLast
  rw [String.data_append]
  have hlen : (p.data ++ s.data).length - 4 = p.data.length := by
    rw [List.length_append, h]
    omega
  rw [hlen, List.drop_left]

theorem nextSaleSequence_pool (p : String) (base : List String)
    (hbase : ∀ s ∈ base, strStartsWith p s = false) (k : Nat) (hk : k ≤ 9999) :
    nextSaleSequence p (base ++ genPool p k) = k + 1 := by
  unfold nextSaleSequence
  rw [filter_pool p base hbase k]
  cases Nat.eq_zero_or_pos k with
  | inl h0 =>
    subst h0
    simp [genPool, maxStr?]
  | inr hpos =>
    rw [maxStr?_genPool p k hpos hk]
    dsimp only
    rw [takeLast_append_of_length p _ (pad4_length (by omega))]
    rw [parseIntPrefix_pad4 (by omega : k < 10000)]

theorem genSaleNumber_pool (p : String) (base : List String)
    (hbase : ∀ s ∈ base, strStartsWith p s = false) (k : Nat) (hk : k ≤ 9999) :
    genSaleNumber p (base ++ genPool p k) = p ++ pad4 (k + 1) := by
  unfold genSaleNumber
  rw [nextSaleSequence_pool p base hbase k hk]

theorem genPool_concat (p : String) (k : Nat) :
    (base ++ genPool p k) ++ [p ++ pad4 (k + 1)] = base ++ genPool p (k + 1) := by
  rw [List.append_assoc]
  congr 1
  unfold genPool
  rw [List.range'_1_concat, List.map_append]
  have : 1 + k = k + 1 := by omega
  simp [this]

theorem genRun_pool (p : String) (base : List String)
    (hbase : ∀ s ∈ base, strStartsWith p s = false) :
    ∀ (n k : Nat), k + n ≤ 9999 →
      genRun p (base ++ genPool p k) n
        = (List.range' (k + 1) n).map (fun j => p ++ pad4 j) := by
  intro n
  induction n with
  | zero => intro k _; rfl
  | succ n ih =>
    intro k hbound
    show (genSaleNumber p (base ++ genPool p k))
        :: genRun p ((base ++ genPool p k) ++ [genSaleNumber p (base ++ genPool p k)]) n
      = _
    rw [genSaleNumber_pool p base hbase k (by omega)]
    rw [genPool_concat p k]
    rw [ih (k + 1) (by omega)]
    rw [List.range'_succ]
    rfl

theorem natToString_length_le_f {f n : Nat} (hf : 1 ≤ f) (h : n < 10 ^ f) :
    (natToString n).length ≤ f := by
  show (natToString n).data.length ≤ f
  show ((natDigitsAux (n + 1) n).map digitChar).length ≤ f
  rw [natDigitsAux_congr (n + 1) f n (by omega) hf (nat_lt_pow_succ n) h,
    List.length_map]
  exact natDigitsAux_length_le f n

theorem natToString_length_ge2 {n : Nat} (h : 10 ≤ n) :
    2 ≤ (natToString n).length := by
  show 2 ≤ ((natDigitsAux (n + 1) n).map digitChar).length
  rw [List.length_map]
  cases hf : n + 1 with
  | zero => omega
  | succ f =>
    unfold natDigitsAux
    rw [if_neg (by omega)]
    rw [List.length_append]
    have h1 : natDigitsAux f (n / 10) ≠ [] :=
      natDigitsAux_ne_nil f (n / 10) (by omega)
    have h2 : 1 ≤ (natDigitsAux f (n / 10)).length :=
      List.length_pos.mpr h1
    simp
    omega

theorem takeLast_data_length (s : String) (n : Nat) :
    (takeLast s n).data.length = min n s.data.length := by
  unfold takeLast
  show (s.data.drop (s.data.length - n)).length = _
  rw [List.length_drop]
  omega

theorem padStart_data_length (s : String) (n : Nat) (c : Char) :
    (padStart s n c).data.length = max n s.data.length := by
  unfold padStart
  rw [String.data_append]
  show (List.replicate (n - s.length) c ++ s.data).length = _
  rw [List.length_append, List.length_replicate]
  show n - s.data.length + s.data.length = _
  omega

theorem dayPrefix_shape {y m d : Nat} (hy : 10 ≤ y) (hm : m < 100)
    (hd : d < 100) :
    (dayPrefix y m d).data.length = 7 ∧
    (dayPrefix y m d).data.head? = some 'S' := by
  have h1 : (takeLast (natToString y) 2).data.length = 2 := by
    rw [takeLast_data_length]
    have h := natToString_length_ge2 hy
    have h' : 2 ≤ (natToString y).data.length := h
    omega
  have h2 : (padStart (natToString m) 2 '0').data.length = 2 := by
    rw [padStart_data_length]
    have h := natToString_length_le_f (f := 2) (by omega) (by omega : m < 10 ^ 2)
    have h' : (natToString m).data.length ≤ 2 := h
    omega
  have h3 : (padStart (natToString d) 2 '0').data.length = 2 := by
    rw [padStart_data_length]
    have h := natToString_length_le_f (f := 2) (by omega) (by omega : d < 10 ^ 2)
    have h' : (natToString d).data.length ≤ 2 := h
    omega
  constructor
  · unfold dayPrefix
    rw [String.data_append, String.data_append, String.data_append,
      List.length_append, List.length_append, List.length_append, h1, h2, h3]
    rfl
  · unfold dayPrefix
    rw [String.data_append, String.data_append, String.data_append]
    rfl

theorem chain'_genRun (p : String) (base : List String)
    (hbase : ∀ s ∈ base, strStartsWith p s = false) (n : Nat) (hn : n ≤ 9999) :
    List.Chain' (· < ·) (genRun p base n) := by
  have hbase0 : base ++ genPool p 0 = base := by simp [genPool]
  have hrun := genRun_pool p base hbase n 0 (by omega)
  rw [hbase0] at hrun
  rw [hrun]
  apply List.Pairwise.chain'
  rw [List.pairwise_map]
  apply List.Pairwise.imp_of_mem ?_ (List.pairwise_lt_range' 1 n)
  intro a b ha hb hab
  have hbmem := List.mem_range'.mp hb
  obtain ⟨i, hi, rfl⟩ := hbmem
  exact string_lt_append_left p _ _ (pad4_lt hab (by omega))

/-! ### C3: sale-number generation -/

/-- C3: a sale saved without a number gets `prefix ++ 0001` when no
same-day number exists, and otherwise the greatest same-day number's
trailing four digits plus one, zero-padded; iterating same-day
creation from a pool without same-day numbers yields exactly
`prefix ++ pad4 1 .. prefix ++ pad4 n` — strictly increasing 4-digit
zero-padded sequences starting at 0001 — and the day prefix is `S`
plus three 2-digit fields. -/
theorem C3_saleNumbers (p : String) (base : List String) (n : Nat)
    (hbase : ∀ s ∈ base, strStartsWith p s = false) (hn : n ≤ 9999) :
    (∀ pool, pool.filter (fun s => strStartsWith p s) = [] →
      genSaleNumber p pool = p ++ "0001") ∧
    (∀ pool m k,
      maxStr? (pool.filter (fun s => strStartsWith p s)) = some m →
      parseIntPrefix (takeLast m 4) = some k →
      genSaleNumber p pool = p ++ pad4 (k + 1)) ∧
    genRun p base n = (List.range' 1 n).map (fun j => p ++ pad4 j) ∧
    List.Chain' (· < ·) (genRun p base n) ∧
    (1 ≤ n → (genRun p base n).head? = some (p ++ "0001")) ∧
    (∀ s ∈ genRun p base n, ∃ j, 1 ≤ j ∧ j ≤ n ∧ s = p ++ pad4 j ∧
      (pad4 j).data.length = 4 ∧ ∀ c ∈ (pad4 j).data, c.isDigit = true) ∧
    (∀ y m d, 10 ≤ y → m < 100 → d < 100 →
      (dayPrefix y m d).data.length = 7 ∧
      (dayPrefix y m d).data.head? = some 'S') := by
  have hbase0 : base ++ genPool p 0 = base := by simp [genPool]
  have hrun := genRun_pool p base hbase n 0 (by omega)
  rw [hbase0] at hrun
  refine ⟨?_, ?_, hrun, chain'_genRun p base hbase n hn, ?_, ?_, ?_⟩
  · intro pool hfilter
    unfold genSaleNumber nextSaleSequence
    rw [hfilter]
    show p ++ pad4 1 = p ++ "0001"
    congr 1
  · intro pool m k hmax hparse
    unfold genSaleNumber nextSaleSequence
    rw [hmax]
    dsimp only
    rw [hparse]
  · intro h1
    rw [hrun]
    cases n with
    | zero => omega
    | succ n =>
      rw [List.range'_succ]
      show some (p ++ pad4 1) = some (p ++ "0001")
      congr 2
  · intro s hs
    rw [hrun] at hs
    obtain ⟨j, hj, rfl⟩ := List.mem_map.mp hs
    obtain ⟨i, hi, rfl⟩ := List.mem_range'.mp hj
    refine ⟨1 + 1 * i, by omega, by omega, rfl, pad4_length (by omega),
      pad4_digits (by omega)⟩
  · intro y m d hy hm hd
    exact dayPrefix_shape hy hm hd

/-- Witness for C3: three same-day generations from an empty pool give
the sequence numbers 1, 2, 3 behind the prefix, starting at `0001`. -/
theorem C3_saleNumbers_witness :
    genRun "S251011" [] 3
      = (List.range' 1 3).map (fun j => "S251011" ++ pad4 j) ∧
    (genRun "S251011" [] 3).head? = some ("S251011" ++ "0001") := by
  have h := C3_saleNumbers "S251011" [] 3 (by simp) (by omega)
  exact ⟨h.2.2.1, h.2.2.2.2.1 (by omega)⟩

/-! ### C8: barcode generation -/

set_option maxHeartbeats 1000000 in
theorem categoryCode_shape (cat : String) :
    (categoryCode cat).data.length = 3 ∧
    ∀ c ∈ (categoryCode cat).data, c.isDigit = true := by
  unfold categoryCode
  split_ifs <;> constructor <;> decide

theorem natToString_single {d : Nat} (h : d < 10) :
    (natToString d).data = [digitChar d] := by
  show (natDigitsAux (d + 1) d).map digitChar = _
  unfold natDigitsAux
  simp [h]

theorem weightedSum_foldl_isSome :
    ∀ (l : List Char) (i a : Nat), (∀ c ∈ l, c.isDigit = true) →
      ∃ ws, (l.enumFrom i).foldl
        (fun acc p =>
          match acc with
          | none => none
          | some n =>
            if p.2.isDigit then
              some (n + (p.2.toNat - 48) * (if p.1 % 2 = 0 then 3 else 1))
            else none)
        (some a) = some ws := by
  intro l
  induction l with
  | nil => intro i a _; exact ⟨a, rfl⟩
  | cons c l ih =>
    intro i a h
    rw [List.enumFrom_cons, List.foldl_cons]
    have hc : c.isDigit = true := h c (by simp)
    simp only [hc, if_true]
    exact ih (i + 1) _ (fun x hx => h x (by simp [hx]))

theorem weightedSum_isSome (s : String)
    (h : ∀ c ∈ s.data, c.isDigit = true) :
    ∃ ws, weightedSum s = some ws := by
  unfold weightedSum
  exact weightedSum_foldl_isSome s.data 0 0 h

/-- C8: every barcode produced by `POST /barcode/generate` is the
10-character body `299` + 3-digit category code + sequence with the
check digit `(10 - weightedSum % 10) % 10` appended as its final
character, where `weightedSum` weights the digit at even positions by
3 and odd positions by 1; with a 4-digit sequence (the fresh-category
`0001` case and every carried sequence below 9999) the barcode is 11
digits long. -/
theorem C8_generateBarcode :
    (∀ (cat : String) (lastBarcode : Option String) (b : String),
      generateBarcode cat lastBarcode = some b →
      ∃ seq ws, nextProductNumber lastBarcode = some seq ∧
        weightedSum ("299" ++ categoryCode cat ++ seq) = some ws ∧
        b = ("299" ++ categoryCode cat ++ seq)
            ++ natToString ((10 - ws % 10) % 10) ∧
        (10 - ws % 10) % 10 < 10 ∧
        b.data.getLast? = some (digitChar ((10 - ws % 10) % 10)) ∧
        (categoryCode cat).data.length = 3 ∧
        (seq.data.length = 4 → b.data.length = 11)) ∧
    (∀ (cat : String) (b : String),
      generateBarcode cat none = some b → b.data.length = 11) ∧
    (∀ (cat lb : String) (k : Nat) (b : String),
      parseIntPrefix (substring lb 6 10) = some k → k + 1 ≤ 9999 →
      generateBarcode cat (some lb) = some b → b.data.length = 11) := by
  have hmain : ∀ (cat : String) (lastBarcode : Option String) (b : String),
      generateBarcode cat lastBarcode = some b →
      ∃ seq ws, nextProductNumber lastBarcode = some seq ∧
        weightedSum ("299" ++ categoryCode cat ++ seq) = some ws ∧
        b = ("299" ++ categoryCode cat ++ seq)
            ++ natToString ((10 - ws % 10) % 10) ∧
        (10 - ws % 10) % 10 < 10 ∧
        b.data.getLast? = some (digitChar ((10 - ws % 10) % 10)) ∧
        (categoryCode cat).data.length = 3 ∧
        (seq.data.length = 4 → b.data.length = 11) := by
    intro cat lastBarcode b h
    unfold generateBarcode at h
    cases hseq : nextProductNumber lastBarcode with
    | none => rw [hseq] at h; simp at h
    | some seq =>
      rw [hseq] at h
      dsimp only at h
      cases hws : weightedSum ("299" ++ categoryCode cat ++ seq) with
      | none => rw [hws] at h; simp at h
      | some ws =>
        rw [hws] at h
        dsimp only at h
        have hb : b = ("299" ++ categoryCode cat ++ seq)
            ++ natToString ((10 - ws % 10) % 10) := by
          injection h with h'
          exact h'.symm
        have hcd : (10 - ws % 10) % 10 < 10 := Nat.mod_lt _ (by norm_num)
        refine ⟨seq, ws, rfl, hws, hb, hcd, ?_, (categoryCode_shape cat).1, ?_⟩
        · rw [hb, String.data_append, natToString_single hcd,
            List.getLast?_concat]
        · intro hlen
          rw [hb, String.data_append, String.data_append, String.data_append,
            natToString_single hcd]
          simp only [List.length_append, hlen, (categoryCode_shape cat).1,
            List.length_cons, List.length_nil]
  refine ⟨hmain, ?_, ?_⟩
  · intro cat b h
    obtain ⟨seq, ws, hseq, -, -, -, -, -, hlen⟩ := hmain cat none b h
    have : seq = "0001" := by
      unfold nextProductNumber at hseq
      dsimp only at hseq
      injection hseq with h'
      exact h'.symm
    subst this
    exact hlen (by decide)
  · intro cat lb k b hparse hk h
    obtain ⟨seq, ws, hseq, -, -, -, -, -, hlen⟩ := hmain cat (some lb) b h
    have hseq' : seq = pad4 (k + 1) := by
      unfold nextProductNumber at hseq
      dsimp only at hseq
      rw [hparse] at hseq
      dsimp only at hseq
      injection hseq with h'
      exact h'.symm
    subst hseq'
    exact hlen (pad4_length (by omega))

/-- Witness for C8: the first Trees barcode is `29910000016` — body
`2991000001`, weighted sum 44, check digit 6 — of length 11. -/
theorem C8_generateBarcode_witness :
    generateBarcode "Trees" none = some "29910000016" ∧
    ("29910000016" : String).data.length = 11 := by
  refine ⟨by decide, ?_⟩
  exact C8_generateBarcode.2.1 "Trees" "29910000016" (by decide)

end Nursery
